import Mathlib

/-!
# Permission syncing: GitLab sudo provider, permissions scheduler, cluster scanner

A shallow embedding of

* `enterprise/cmd/frontend/internal/authz/gitlab/sudo.go`
  (`SudoProvider.FetchUserPerms`, `SudoProvider.FetchRepoPerms`),
* `enterprise/cmd/repo-updater/authz/perms_scheduler.go`
  (`PermsScheduler.schedule`, `StartPermsSyncing`),
* `cmd/frontend/internal/app/debugproxies/scanner.go`
  (`clusterScanner.scanCluster`, `addrToHost`),

followed by the theorems that settle the claims C1 .. C10.

Conventions. A Go `error` is an `Option GoError` (`none` is `nil`).  The ID
slice returned by the provider is an `Option (List String)` (`none` is the
`nil` slice, `some []` an allocated empty slice); elsewhere a slice is a list
and `nil` is the empty list.  External collaborators (the GitLab HTTP
client, the permissions syncer, the scans, the Kubernetes client) are
parameters; the ones that talk to the outside world thread an explicit state.
Unbounded `for` loops take a fuel argument; a run that exhausts its fuel
reports `ret = none` together with everything it did so far.
-/

namespace Go

/-- Go `error` values as they are built in the embedded sources. -/
inductive GoError where
  /-- `errors.New(msg)`, or any error value produced by a collaborator. -/
  | new (msg : String)
  /-- `fmt.Errorf(format, args...)`, kept unformatted. -/
  | errorf (format : String) (args : List String)
  /-- `errors.Wrap(cause, msg)` for a non-nil `cause`. -/
  | wrap (cause : GoError) (msg : String)
  deriving DecidableEq, Repr

/-- `strconv.Itoa`: the decimal rendering of an integer. -/
def Itoa (n : Int) : String := toString n

/-- The UTF-8 bytes of a code point. -/
def utf8Bytes (c : Char) : List Nat :=
  let n := c.toNat
  if n < 0x80 then [n]
  else if n < 0x800 then [0xC0 + n / 64, 0x80 + n % 64]
  else if n < 0x10000 then [0xE0 + n / 4096, 0x80 + (n / 64) % 64, 0x80 + n % 64]
  else [0xF0 + n / 262144, 0x80 + (n / 4096) % 64, 0x80 + (n / 64) % 64, 0x80 + n % 64]

/-- `net/url.shouldEscape(c, encodeQueryComponent)`: everything but the
unreserved bytes is escaped. -/
def shouldEscape (b : Nat) : Bool :=
  !((0x61 ≤ b && b ≤ 0x7A) || (0x41 ≤ b && b ≤ 0x5A) || (0x30 ≤ b && b ≤ 0x39)
    || b == 0x2D || b == 0x5F || b == 0x2E || b == 0x7E)

/-- The upper-case hexadecimal digit of a nibble. -/
def upperhex (d : Nat) : Char :=
  if d < 10 then Char.ofNat (0x30 + d) else Char.ofNat (0x41 + (d - 10))

/-- One byte of `net/url.escape` in query-component mode. -/
def escapeByte (b : Nat) : List Char :=
  if shouldEscape b then
    if b == 0x20 then ['+'] else ['%', upperhex (b / 16), upperhex (b % 16)]
  else [Char.ofNat b]

/-- `net/url.QueryEscape`. -/
def QueryEscape (s : String) : String :=
  String.mk ((s.toList.flatMap utf8Bytes).flatMap escapeByte)

/-- `net/url.Values`, a `map[string][]string`, as an association list with
one entry per key. -/
abbrev Values := List (String × List String)

/-- `make(url.Values)`. -/
def Values.make : Values := []

/-- `Values.Add(key, value)`: append `value` to the values of `key`. -/
def Values.Add : Values → String → String → Values
  | [], key, value => [(key, [value])]
  | (k, vs) :: rest, key, value =>
    if k = key then (k, vs ++ [value]) :: rest else (k, vs) :: Values.Add rest key value

/-- Lexicographic `<` on byte sequences, the order of Go strings. -/
def bytesLt : List Nat → List Nat → Bool
  | _, [] => false
  | [], _ :: _ => true
  | a :: as, b :: bs => a < b || (a == b && bytesLt as bs)

/-- Go's `<` on strings. -/
def stringLt (a b : String) : Bool :=
  bytesLt (a.toList.flatMap utf8Bytes) (b.toList.flatMap utf8Bytes)

/-- Insertion of a key into a list of keys sorted in increasing order. -/
def insertKey (k : String) : List String → List String
  | [] => [k]
  | x :: xs => if stringLt k x then k :: x :: xs else x :: insertKey k xs

/-- The keys of the map in the order of `sort.Strings`. -/
def sortedKeys (v : Values) : List String :=
  (v.map Prod.fst).foldr insertKey []

/-- The values stored under a key. -/
def Values.get (v : Values) (key : String) : List String :=
  match v.find? (fun kv => kv.1 = key) with
  | some kv => kv.2
  | none => []

/-- `Values.Encode()`: the `key=value` pairs, keys sorted, joined by `&`, keys
and values query-escaped. -/
def Values.Encode (v : Values) : String :=
  "&".intercalate
    ((sortedKeys v).flatMap fun k => (v.get k).map fun x => QueryEscape k ++ "=" ++ QueryEscape x)

end Go

namespace Gitlab

open Go

/-- The `extsvc.CodeHost` fields the provider compares against. -/
structure CodeHost where
  ServiceType : String
  ServiceID : String
  deriving DecidableEq, Repr

/-- The `extsvc.ExternalAccountData` blobs of an account. -/
structure ExternalAccountData where
  AuthData : Option String
  AccountData : Option String
  deriving DecidableEq, Repr

/-- The `extsvc.ExternalAccount` fields. -/
structure ExternalAccount where
  ServiceType : String
  ServiceID : String
  AccountID : String
  ExternalAccountData : ExternalAccountData
  deriving DecidableEq, Repr

/-- The `api.ExternalRepoSpec` fields. -/
structure ExternalRepoSpec where
  ID : String
  ServiceType : String
  ServiceID : String
  deriving DecidableEq, Repr

/-- The field of `gitlab.User` that is read (an `int32`). -/
structure User where
  ID : Int
  deriving DecidableEq, Repr

/-- The field of `gitlab.Project` that is read (an `int`). -/
structure Project where
  ID : Int
  deriving DecidableEq, Repr

/-- The field of `gitlab.Member` that is read (an `int32`). -/
structure Member where
  ID : Int
  deriving DecidableEq, Repr

/-- What a list request returns: an error, or a page and the URL of the next
page if there is one. -/
abbrev Page (α : Type) := Except GoError (List α × Option String)

/-- The two list requests of a `gitlab.Client`; `σ` is the state of the code
host and of the network. -/
structure Client (σ : Type) where
  ListProjects : σ → String → σ × Page Project
  ListMembers : σ → String → σ × Page Member

/-- The fields of `SudoProvider` that the two methods read. -/
structure SudoProvider (σ : Type) where
  sudoToken : String
  codeHost : CodeHost
  /-- `clientProvider.GetPATClient(token, sudo)`. -/
  GetPATClient : String → String → Client σ

/-- What a call of `FetchUserPerms` / `FetchRepoPerms` did. -/
structure Fetch (σ α : Type) where
  /-- The state of the host afterwards. -/
  host : σ
  /-- The arguments of the `GetPATClient` call, if one was made. -/
  client : Option (String × String)
  /-- The list requests issued, oldest first, each with its answer. -/
  requests : List (String × Page α)
  /-- The returned pair of ID slice and error; `none` while the loop runs. -/
  ret : Option (Option (List String) × Option GoError)

/-- The `for` loop shared by both methods: request `nextURL`, return the IDs
so far with the error if the request fails, append the IDs of the page, stop
when no next page is named, otherwise continue with the named URL. -/
def pageLoop {σ α : Type} (list : σ → String → σ × Page α) (render : α → String)
    (client : Option (String × String)) :
    Nat → σ → String → List String → List (String × Page α) → Fetch σ α
  | 0, s, _, _, log => ⟨s, client, log, none⟩
  | fuel + 1, s, nextURL, ids, log =>
    match list s nextURL with
    | (s', .error err) =>
      ⟨s', client, log ++ [(nextURL, .error err)], some (some ids, some err)⟩
    | (s', .ok (items, next)) =>
      let ids' := ids ++ items.map render
      match next with
      | none => ⟨s', client, log ++ [(nextURL, .ok (items, none))], some (some ids', none)⟩
      | some u =>
        pageLoop list render client fuel s' u ids' (log ++ [(nextURL, .ok (items, some u))])

/-- The first URL `FetchUserPerms` builds. -/
def projectsURL : String :=
  let q := Values.make
  let q := q.Add "visibility" "private"
  let q := q.Add "min_access_level" "20"
  let q := q.Add "per_page" "100"
  "projects?" ++ q.Encode

/-- The first URL `FetchRepoPerms` builds for a repository. -/
def membersURL (repo : ExternalRepoSpec) : String :=
  let q := Values.make
  let q := q.Add "per_page" "100"
  "projects/" ++ repo.ID ++ "/members/all?" ++ q.Encode

/-- `SudoProvider.FetchUserPerms`.  `getData` is
`gitlab.GetExternalAccountData`. -/
def FetchUserPerms {σ : Type} (getData : ExternalAccountData → Except GoError User)
    (p : SudoProvider σ) (fuel : Nat) (s : σ) (account : Option ExternalAccount) :
    Fetch σ Project :=
  match account with
  | none => ⟨s, none, [], some (none, some (.new "no account provided"))⟩
  | some account =>
    if account.ServiceType ≠ p.codeHost.ServiceType ∨ account.ServiceID ≠ p.codeHost.ServiceID then
      ⟨s, none, [], some (none, some (.errorf
        "service mismatch: want %q - %q but the account has %q - %q"
        [p.codeHost.ServiceType, p.codeHost.ServiceID, account.ServiceType, account.ServiceID]))⟩
    else
      match getData account.ExternalAccountData with
      | .error err => ⟨s, none, [], some (none, some (.wrap err "get external account data"))⟩
      | .ok user =>
        let sudoUser := Itoa user.ID
        let nextURL := projectsURL
        let projectIDs : List String := []
        let client := p.GetPATClient p.sudoToken sudoUser
        pageLoop client.ListProjects (fun pr => Itoa pr.ID) (some (p.sudoToken, sudoUser))
          fuel s nextURL projectIDs []

/-- `SudoProvider.FetchRepoPerms`. -/
def FetchRepoPerms {σ : Type} (p : SudoProvider σ) (fuel : Nat) (s : σ)
    (repo : Option ExternalRepoSpec) : Fetch σ Member :=
  match repo with
  | none => ⟨s, none, [], some (none, some (.new "no repository provided"))⟩
  | some repo =>
    if repo.ServiceType ≠ p.codeHost.ServiceType ∨ repo.ServiceID ≠ p.codeHost.ServiceID then
      ⟨s, none, [], some (none, some (.errorf
        "service mismatch: want %q - %q but the repository has %q - %q"
        [p.codeHost.ServiceType, p.codeHost.ServiceID, repo.ServiceType, repo.ServiceID]))⟩
    else
      let nextURL := membersURL repo
      let userIDs : List String := []
      let client := p.GetPATClient p.sudoToken ""
      pageLoop client.ListMembers (fun m => Itoa m.ID) (some (p.sudoToken, ""))
        fuel s nextURL userIDs []

/-- A client that answers its requests from a script, whatever the URL: the
state of the host is the number of requests answered so far. -/
def scriptedClient (projects : List (Page Project)) (members : List (Page Member)) :
    Client Nat where
  ListProjects := fun n _ => (n + 1, projects.getD n (.error (.new "no response")))
  ListMembers := fun n _ => (n + 1, members.getD n (.error (.new "no response")))

/-- A provider for `gitlab.com` over a scripted client. -/
def scriptedProvider (projects : List (Page Project)) (members : List (Page Member)) :
    SudoProvider Nat where
  sudoToken := "sudo-token"
  codeHost := ⟨"gitlab", "https://gitlab.com/"⟩
  GetPATClient := fun _ _ => scriptedClient projects members

/-- A decoder of account data that finds user 7 in every account. -/
def decodeUser7 : ExternalAccountData → Except GoError User := fun _ => .ok ⟨7⟩

/-- An account on `gitlab.com`. -/
def accountOnGitlab : ExternalAccount := ⟨"gitlab", "https://gitlab.com/", "7", ⟨none, none⟩⟩

/-- An account on another GitLab instance. -/
def accountElsewhere : ExternalAccount :=
  ⟨"gitlab", "https://gitlab.example.com/", "7", ⟨none, none⟩⟩

/-- A repository on `gitlab.com`. -/
def repoOnGitlab : ExternalRepoSpec := ⟨"42", "gitlab", "https://gitlab.com/"⟩

/-- A repository on another GitLab instance. -/
def repoElsewhere : ExternalRepoSpec := ⟨"42", "gitlab", "https://gitlab.example.com/"⟩

/-- Project pages P1, P2, P3 of which the second fails. -/
def projectsSecondFails : List (Page Project) :=
  [.ok ([⟨101⟩, ⟨102⟩], some "projects?page=2"), .error (.new "502 Bad Gateway"),
    .ok ([⟨103⟩], none)]

/-- Member pages P1, P2, P3 of which the second fails. -/
def membersSecondFails : List (Page Member) :=
  [.ok ([⟨1⟩, ⟨2⟩], some "members?page=2"), .error (.new "502 Bad Gateway"),
    .ok ([⟨3⟩], none)]

/-- Two project pages, the second the last; project 101 is on both. -/
def projectsTwoPages : List (Page Project) :=
  [.ok ([⟨102⟩, ⟨101⟩], some "projects?page=2"), .ok ([⟨101⟩], none)]

/-- Two member pages, the second the last; member 1 is on both. -/
def membersTwoPages : List (Page Member) :=
  [.ok ([⟨2⟩, ⟨1⟩], some "members?page=2"), .ok ([⟨1⟩], none)]

/-- The host, asked for `url` in state `s`, answers with the pages `ps` one
after the other: each request succeeds and names the URL of the next one. -/
def Serves {σ α : Type} (list : σ → String → σ × Page α) :
    σ → String → List (List α × String) → Prop
  | _, _, [] => True
  | s, url, (items, next) :: ps =>
    (list s url).2 = .ok (items, some next) ∧ Serves list (list s url).1 next ps

/-- The state of the host once it has served the pages `ps`. -/
def hostAfter {σ α : Type} (list : σ → String → σ × Page α) :
    σ → String → List (List α × String) → σ
  | s, _, [] => s
  | s, url, (_, next) :: ps => hostAfter list (list s url).1 next ps

/-- The URL named by the last of the pages `ps` (the first URL if there is
no page). -/
def urlAfter {α : Type} : String → List (List α × String) → String
  | url, [] => url
  | _, (_, next) :: ps => urlAfter next ps

/-- The requests that fetch the pages `ps`, with their answers. -/
def exchanges {α : Type} : String → List (List α × String) → List (String × Page α)
  | _, [] => []
  | url, (items, next) :: ps => (url, .ok (items, some next)) :: exchanges next ps

/-- The rendered IDs of the pages `ps`, in page order and within-page order. -/
def idsOf {α : Type} (render : α → String) (ps : List (List α × String)) : List String :=
  ps.flatMap fun pg => pg.1.map render

/-- Each request but the first uses the next-page URL of the answer before. -/
def Linked {α : Type} (log : List (String × Page α)) : Prop :=
  List.Chain' (fun a b => ∃ items, a.2 = .ok (items, some b.1)) log

end Gitlab

namespace Authz

open Go

/-- Modelled from the spec: the `Priority` type of the syncer, whose
declaration is outside the embedded sources, "ordered enum {High, Low}". -/
inductive Priority where
  | PriorityLow
  | PriorityHigh
  deriving DecidableEq, Repr

/-- The four scan methods of `PermsScheduler`; `σ` is the state of the
database and of the syncer.  A scan returns its ID slice and its error. -/
structure Scans (σ : Type) where
  scanUsersWithNoPerms : σ → σ × List Int × Option GoError
  scanReposWithNoPerms : σ → σ × List Int × Option GoError
  scanUsersWithOldestPerms : σ → σ × List Int × Option GoError
  scanReposWithOldestPerms : σ → σ × List Int × Option GoError

/-- The four scan methods as they stand in the source: each is
`return nil, nil`. -/
def sourceScans (σ : Type) : Scans σ where
  scanUsersWithNoPerms := fun w => (w, [], none)
  scanReposWithNoPerms := fun w => (w, [], none)
  scanUsersWithOldestPerms := fun w => (w, [], none)
  scanReposWithOldestPerms := fun w => (w, [], none)

/-- The two enqueue methods of `*PermsSyncer` that `schedule` calls; the type
is declared outside the embedded sources, so it is a parameter. -/
structure PermsSyncer (σ : Type) where
  ScheduleUsers : σ → Priority → List Int → σ × Option GoError
  ScheduleRepos : σ → Priority → List Int → σ × Option GoError

/-- The calls `schedule` makes. -/
inductive Event where
  | scanUsersWithNoPerms
  | scanReposWithNoPerms
  | scanUsersWithOldestPerms
  | scanReposWithOldestPerms
  | ScheduleUsers (priority : Priority) (userIDs : List Int)
  | ScheduleRepos (priority : Priority) (repoIDs : List Int)
  deriving DecidableEq, Repr

/-- What one call of `schedule` did. -/
structure Round (σ : Type) where
  /-- The state afterwards. -/
  world : σ
  /-- The calls made, oldest first. -/
  events : List Event
  /-- The returned error. -/
  err : Option GoError

/-- `PermsScheduler.schedule`. -/
def schedule {σ : Type} (sc : Scans σ) (syncer : PermsSyncer σ) (w : σ) : Round σ :=
  match sc.scanUsersWithNoPerms w with
  | (w, _, some err) =>
    ⟨w, [.scanUsersWithNoPerms], some (.wrap err "scan users with no permissions")⟩
  | (w, userIDs, none) =>
  match syncer.ScheduleUsers w .PriorityHigh userIDs with
  | (w, some err) =>
    ⟨w, [.scanUsersWithNoPerms, .ScheduleUsers .PriorityHigh userIDs],
      some (.wrap err "schedule requests for users with no permissions")⟩
  | (w, none) =>
  let ev1 : List Event := [.scanUsersWithNoPerms, .ScheduleUsers .PriorityHigh userIDs]
  match sc.scanReposWithNoPerms w with
  | (w, _, some err) =>
    ⟨w, ev1 ++ [.scanReposWithNoPerms], some (.wrap err "scan repositories with no permissions")⟩
  | (w, repoIDs, none) =>
  match syncer.ScheduleRepos w .PriorityHigh repoIDs with
  | (w, some err) =>
    ⟨w, ev1 ++ [.scanReposWithNoPerms, .ScheduleRepos .PriorityHigh repoIDs],
      some (.wrap err "schedule requests for repositories with no permissions")⟩
  | (w, none) =>
  let ev2 : List Event := ev1 ++ [.scanReposWithNoPerms, .ScheduleRepos .PriorityHigh repoIDs]
  match sc.scanUsersWithOldestPerms w with
  | (w, _, some err) =>
    ⟨w, ev2 ++ [.scanUsersWithOldestPerms],
      some (.wrap err "scan users with oldest permissions")⟩
  | (w, userIDs, none) =>
  match syncer.ScheduleUsers w .PriorityLow userIDs with
  | (w, some err) =>
    ⟨w, ev2 ++ [.scanUsersWithOldestPerms, .ScheduleUsers .PriorityLow userIDs],
      some (.wrap err "schedule requests for users with oldest permissions")⟩
  | (w, none) =>
  let ev3 : List Event := ev2 ++ [.scanUsersWithOldestPerms, .ScheduleUsers .PriorityLow userIDs]
  match sc.scanReposWithOldestPerms w with
  | (w, _, some err) =>
    ⟨w, ev3 ++ [.scanReposWithOldestPerms],
      some (.wrap err "scan repositories with oldest permissions")⟩
  | (w, repoIDs, none) =>
  match syncer.ScheduleRepos w .PriorityLow repoIDs with
  | (w, some err) =>
    ⟨w, ev3 ++ [.scanReposWithOldestPerms, .ScheduleRepos .PriorityLow repoIDs],
      some (.wrap err "schedule requests for repositories with oldest permissions")⟩
  | (w, none) =>
    ⟨w, ev3 ++ [.scanReposWithOldestPerms, .ScheduleRepos .PriorityLow repoIDs], none⟩

/-- The slice variables `userIDs` and `repoIDs` of `schedule`. -/
structure Vars where
  userIDs : List Int
  repoIDs : List Int
  deriving DecidableEq, Repr

/-- The eight steps of `schedule` one at a time, numbered from 0 (scan 1,
enqueue 1, ..., scan 4, enqueue 4): step `k` run on a state and the slice
variables, giving the new state and variables and the error of the call. -/
def stepAt {σ : Type} (sc : Scans σ) (syncer : PermsSyncer σ) :
    Nat → σ × Vars → (σ × Vars) × Option GoError
  | 0, (w, v) =>
    let r := sc.scanUsersWithNoPerms w
    ((r.1, { v with userIDs := r.2.1 }), r.2.2)
  | 1, (w, v) =>
    let r := syncer.ScheduleUsers w .PriorityHigh v.userIDs
    ((r.1, v), r.2)
  | 2, (w, v) =>
    let r := sc.scanReposWithNoPerms w
    ((r.1, { v with repoIDs := r.2.1 }), r.2.2)
  | 3, (w, v) =>
    let r := syncer.ScheduleRepos w .PriorityHigh v.repoIDs
    ((r.1, v), r.2)
  | 4, (w, v) =>
    let r := sc.scanUsersWithOldestPerms w
    ((r.1, { v with userIDs := r.2.1 }), r.2.2)
  | 5, (w, v) =>
    let r := syncer.ScheduleUsers w .PriorityLow v.userIDs
    ((r.1, v), r.2)
  | 6, (w, v) =>
    let r := sc.scanReposWithOldestPerms w
    ((r.1, { v with repoIDs := r.2.1 }), r.2.2)
  | 7, (w, v) =>
    let r := syncer.ScheduleRepos w .PriorityLow v.repoIDs
    ((r.1, v), r.2)
  | _, x => (x, none)

/-- The call that step `k` makes when the slice variables are `v`. -/
def stepEvent : Nat → Vars → Event
  | 0, _ => .scanUsersWithNoPerms
  | 1, v => .ScheduleUsers .PriorityHigh v.userIDs
  | 2, _ => .scanReposWithNoPerms
  | 3, v => .ScheduleRepos .PriorityHigh v.repoIDs
  | 4, _ => .scanUsersWithOldestPerms
  | 5, v => .ScheduleUsers .PriorityLow v.userIDs
  | 6, _ => .scanReposWithOldestPerms
  | _, v => .ScheduleRepos .PriorityLow v.repoIDs

/-- The message with which `schedule` wraps the error of step `k`. -/
def stageMessage : Nat → String
  | 0 => "scan users with no permissions"
  | 1 => "schedule requests for users with no permissions"
  | 2 => "scan repositories with no permissions"
  | 3 => "schedule requests for repositories with no permissions"
  | 4 => "scan users with oldest permissions"
  | 5 => "schedule requests for users with oldest permissions"
  | 6 => "scan repositories with oldest permissions"
  | _ => "schedule requests for repositories with oldest permissions"

/-- The state and slice variables in which step `k` starts when the steps
before it have all been executed. -/
def stateBefore {σ : Type} (sc : Scans σ) (syncer : PermsSyncer σ) (w : σ) : Nat → σ × Vars
  | 0 => (w, ⟨[], []⟩)
  | k + 1 => (stepAt sc syncer k (stateBefore sc syncer w k)).1

/-- The error with which step `k` ends when the steps before it have all been
executed. -/
def stepError {σ : Type} (sc : Scans σ) (syncer : PermsSyncer σ) (w : σ) (k : Nat) :
    Option GoError :=
  (stepAt sc syncer k (stateBefore sc syncer w k)).2

/-- The call of step `k` when the steps before it have all been executed.
An enqueue step passes the slice its scan has just stored. -/
def callOf {σ : Type} (sc : Scans σ) (syncer : PermsSyncer σ) (w : σ) (k : Nat) : Event :=
  stepEvent k (stateBefore sc syncer w k).2

/-- The steps in sequence with abort: run `n` steps starting with step `k`,
stop at the first error and wrap it with the message of its step. -/
def runFrom {σ : Type} (sc : Scans σ) (syncer : PermsSyncer σ) :
    Nat → Nat → σ × Vars → List Event → Round σ
  | 0, _, x, evs => ⟨x.1, evs, none⟩
  | n + 1, k, x, evs =>
    match stepAt sc syncer k x with
    | (x', some e) => ⟨x'.1, evs ++ [stepEvent k x.2], some (.wrap e (stageMessage k))⟩
    | (x', none) => runFrom sc syncer n (k + 1) x' (evs ++ [stepEvent k x.2])

/-- A syncer that accepts every enqueue and counts them in the state. -/
def acceptingSyncer : PermsSyncer Nat where
  ScheduleUsers := fun w _ _ => (w + 1, none)
  ScheduleRepos := fun w _ _ => (w + 1, none)

/-- A syncer that rejects every enqueue, as one that is shutting down. -/
def rejectingSyncer : PermsSyncer Nat where
  ScheduleUsers := fun w _ _ => (w, some (.new "syncer is shutting down"))
  ScheduleRepos := fun w _ _ => (w, some (.new "syncer is shutting down"))

/-- A syncer that accepts users and rejects repositories. -/
def repoRejectingSyncer : PermsSyncer Nat where
  ScheduleUsers := fun w _ _ => (w + 1, none)
  ScheduleRepos := fun w _ _ => (w, some (.new "repository queue is full"))

/-- Scans that succeed and find IDs that depend on the state. -/
def findingScans : Scans Nat where
  scanUsersWithNoPerms := fun w => (w + 1, [7, 9], none)
  scanReposWithNoPerms := fun w => (w + 1, [100 + w], none)
  scanUsersWithOldestPerms := fun w => (w + 1, [7], none)
  scanReposWithOldestPerms := fun w => (w + 1, [], none)

/-- Scans of which the second, for repositories with no permissions, fails. -/
def secondScanFails : Scans Nat where
  scanUsersWithNoPerms := fun w => (w + 1, [7, 9], none)
  scanReposWithNoPerms := fun w => (w + 1, [], some (.new "database is down"))
  scanUsersWithOldestPerms := fun w => (w + 1, [7], none)
  scanReposWithOldestPerms := fun w => (w + 1, [], none)

/-- The state of the loop of `StartPermsSyncing`. -/
structure Loop (σ : Type) where
  /-- The state of the database and of the syncer. -/
  world : σ
  /-- A tick waits in `ticker.C`. -/
  tick : Bool
  /-- The context is cancelled: `ctx.Done()` is closed. -/
  done : Bool
  /-- `StartPermsSyncing` has returned. -/
  returned : Bool
  /-- The calls of `schedule` so far, oldest first. -/
  rounds : List (Round σ)

/-- What can happen to the loop: the ticker sends a tick, the context is
cancelled, the `select` receives from `ticker.C`, the `select` receives from
`ctx.Done()`. -/
inductive Action where
  | tickFires
  | cancel
  | takeTick
  | takeDone
  deriving DecidableEq, Repr

/-- One step of `StartPermsSyncing`.  The `select` takes a case that is
ready; when both are ready either may be taken.  Taking the tick runs
`schedule`, whose error is only logged; taking `ctx.Done()` returns, which
stops the ticker. -/
def Loop.step {σ : Type} (sc : Scans σ) (syncer : PermsSyncer σ) (l : Loop σ) :
    Action → Option (Loop σ)
  | .tickFires => if l.returned then none else some { l with tick := true }
  | .cancel => some { l with done := true }
  | .takeTick =>
    if l.returned = false ∧ l.tick = true then
      let r := schedule sc syncer l.world
      some { l with world := r.world, tick := false, rounds := l.rounds ++ [r] }
    else none
  | .takeDone =>
    if l.returned = false ∧ l.done = true then some { l with returned := true } else none

/-- A run of the loop over a sequence of actions; `none` if an action is not
enabled when its turn comes. -/
def Loop.exec {σ : Type} (sc : Scans σ) (syncer : PermsSyncer σ) :
    Loop σ → List Action → Option (Loop σ)
  | l, [] => some l
  | l, a :: as =>
    match l.step sc syncer a with
    | none => none
    | some l' => Loop.exec sc syncer l' as

/-- The loop when `StartPermsSyncing` reaches its `for`. -/
def Loop.start {σ : Type} (w : σ) : Loop σ := ⟨w, false, false, false, []⟩

/-- Modelled from the spec: the `Subject` of a sync request, "a tagged union
{User(int32 ID), Repo(opaque RepoID)}"; the syncer is outside the embedded
sources. -/
inductive Subject where
  | User (id : Int)
  | Repo (id : Int)
  deriving DecidableEq, Repr

/-- Modelled from the spec: a pending `SyncRequest`, "(Subject, Priority,
enqueuedAt)". -/
structure SyncRequest where
  subject : Subject
  priority : Priority
  enqueuedAt : Nat
  deriving DecidableEq, Repr

/-- Modelled from the spec: the order of `Priority`, "High dominates Low". -/
def Priority.max : Priority → Priority → Priority
  | .PriorityLow, .PriorityLow => .PriorityLow
  | _, _ => .PriorityHigh

/-- Modelled from the spec: the enqueue of the syncer's queue, which is
outside the embedded sources: "if a Subject is enqueued again before dispatch,
the pending entry's Priority becomes max(existing, new), never duplicated". -/
def enqueue (subject : Subject) (priority : Priority) (now : Nat) :
    List SyncRequest → List SyncRequest
  | [] => [⟨subject, priority, now⟩]
  | r :: q =>
    if r.subject = subject then { r with priority := r.priority.max priority } :: q
    else r :: enqueue subject priority now q

/-- A call of one of the two enqueue methods of the syncer. -/
inductive Call where
  | ScheduleUsers (priority : Priority) (userIDs : List Int)
  | ScheduleRepos (priority : Priority) (repoIDs : List Int)
  deriving DecidableEq, Repr

/-- The priority of a call. -/
def Call.priority : Call → Priority
  | .ScheduleUsers p _ => p
  | .ScheduleRepos p _ => p

/-- The subjects a call enqueues, in argument order. -/
def Call.subjects : Call → List Subject
  | .ScheduleUsers _ ids => ids.map Subject.User
  | .ScheduleRepos _ ids => ids.map Subject.Repo

/-- Modelled from the spec: `ScheduleUsers` / `ScheduleRepos` of the syncer,
which is outside the embedded sources: each ID is enqueued under the rule of
`enqueue`. -/
def applyCall (q : List SyncRequest) (now : Nat) (c : Call) : List SyncRequest :=
  c.subjects.foldl (fun q subject => enqueue subject c.priority now q) q

/-- The queue after a sequence of calls, none dispatched, the first made at
time `now` and each later one a tick after the one before. -/
def pendingAfter : List SyncRequest → Nat → List Call → List SyncRequest
  | q, _, [] => q
  | q, now, c :: cs => pendingAfter (applyCall q now c) (now + 1) cs

/-- The priorities with which a subject was enqueued by a sequence of calls. -/
def enqueuedWith (subject : Subject) (cs : List Call) : List Priority :=
  cs.flatMap fun c => (c.subjects.filter (· = subject)).map fun _ => c.priority

/-- The maximum of a list of priorities. -/
def maxPriority (ps : List Priority) : Priority :=
  ps.foldl Priority.max .PriorityLow

/-- The priorities of the pending requests of a subject. -/
def pendingFor (subject : Subject) (q : List SyncRequest) : List Priority :=
  (q.filter (·.subject = subject)).map (·.priority)

/-- A queue holds, for every subject, nothing if the subject was never
enqueued and otherwise one request at the maximum of the priorities in
`hist`. -/
def Tracks (q : List SyncRequest) (hist : Subject → List Priority) : Prop :=
  ∀ subject, pendingFor subject q =
    if hist subject = [] then [] else [maxPriority (hist subject)]

/-- The subjects that a call of `schedule` hands to the syncer: none for a
scan, one per ID for an enqueue. -/
def Event.enqueued : Event → List Subject
  | .ScheduleUsers _ userIDs => userIDs.map Subject.User
  | .ScheduleRepos _ repoIDs => repoIDs.map Subject.Repo
  | _ => []

/-- Whether a call of `schedule` is an enqueue. -/
def Event.isEnqueue : Event → Bool
  | .ScheduleUsers _ _ => true
  | .ScheduleRepos _ _ => true
  | _ => false

end Authz

namespace Debugproxies

open Go

/-- The value of a run of decimal digits read after the value `acc`; `none`
if a character is not a digit. -/
def digitsValue : List Char → Nat → Option Nat
  | [], acc => some acc
  | c :: cs, acc =>
    if 0x30 ≤ c.toNat ∧ c.toNat ≤ 0x39 then digitsValue cs (acc * 10 + (c.toNat - 0x30))
    else none

/-- `strconv.Atoi` on a 64-bit platform: an optional sign, then at least one
decimal digit, and a value that fits an `int`; `none` is a non-nil error. -/
def Atoi (s : String) : Option Int :=
  let body (neg : Bool) (ds : List Char) : Option Int :=
    match ds with
    | [] => none
    | _ :: _ =>
      match digitsValue ds 0 with
      | none => none
      | some n =>
        if neg then (if n ≤ 2 ^ 63 then some (-(n : Int)) else none)
        else (if n < 2 ^ 63 then some (n : Int) else none)
  match s.toList with
  | '-' :: ds => body true ds
  | '+' :: ds => body false ds
  | ds => body false ds

/-- The fields of `corev1.EndpointAddress` that are read. -/
structure EndpointAddress where
  Ip : Option String
  Hostname : Option String
  deriving DecidableEq, Repr

/-- The field of `corev1.EndpointSubset` that is read. -/
structure EndpointSubset where
  Addresses : List EndpointAddress
  deriving DecidableEq, Repr

/-- The field of `corev1.Endpoints` that is read. -/
structure Endpoints where
  Subsets : List EndpointSubset
  deriving DecidableEq, Repr

/-- The fields of `metav1.ObjectMeta` that are read; `Annotations k` is the
map lookup `Annotations[k]`, the empty string for a missing key. -/
structure ObjectMeta where
  Name : Option String
  Annotations : String → String

/-- The field of `corev1.Service` that is read. -/
structure Service where
  Metadata : Option ObjectMeta

/-- The two requests of the `k8s.Client` in its namespace: list the services,
get the endpoints of a service by name. -/
structure K8sClient where
  List : Except GoError (List Service)
  Get : String → Except GoError Endpoints

/-- An `Endpoint`. -/
structure Endpoint where
  Service : String
  Host : String
  deriving DecidableEq, Repr

/-- How a call of `scanCluster` ends. -/
inductive Scan where
  /-- `cs.consume(scanResults)` was called. -/
  | consumed (scanResults : List Endpoint)
  /-- The list request failed: return, the consumer is not called. -/
  | listFailed
  /-- A get request failed: return, the consumer is not called. -/
  | getFailed
  /-- A nil pointer was dereferenced. -/
  | nilDereference
  deriving DecidableEq, Repr

/-- `addrToHost`. -/
def addrToHost (addr : EndpointAddress) (port : Int) : String :=
  match addr.Ip with
  | some ip => ip ++ ":" ++ Itoa port
  | none =>
    match addr.Hostname with
    | some hostname => if hostname ≠ "" then hostname ++ ":" ++ Itoa port else ""
    | none => ""

/-- The loop over the addresses of a subset. -/
def scanAddresses (svcName : String) (port : Int) :
    List EndpointAddress → List Endpoint → List Endpoint
  | [], scanResults => scanResults
  | addr :: addrs, scanResults =>
    let host := addrToHost addr port
    if host ≠ "" then scanAddresses svcName port addrs (scanResults ++ [⟨svcName, host⟩])
    else scanAddresses svcName port addrs scanResults

/-- The loop over the subsets of the endpoints of a service. -/
def scanSubsets (svcName : String) (port : Int) :
    List EndpointSubset → List Endpoint → List Endpoint
  | [], scanResults => scanResults
  | subset :: subsets, scanResults =>
    scanSubsets svcName port subsets (scanAddresses svcName port subset.Addresses scanResults)

/-- The loop over the services. -/
def scanServices (client : K8sClient) : List Service → List Endpoint → Scan
  | [], scanResults => .consumed scanResults
  | svc :: svcs, scanResults =>
    match svc.Metadata with
    | none => .nilDereference
    | some metadata =>
      match metadata.Name with
      | none => .nilDereference
      | some svcName =>
        if svcName = "pgsql" then scanServices client svcs scanResults
        else if metadata.Annotations "sourcegraph.prometheus/scrape" ≠ "true" then
          scanServices client svcs scanResults
        else
          let portStr := metadata.Annotations "prometheus.io/port"
          if portStr = "" then scanServices client svcs scanResults
          else
            match Atoi portStr with
            | none => scanServices client svcs scanResults
            | some port =>
              match client.Get svcName with
              | .error _ => .getFailed
              | .ok endpoints =>
                scanServices client svcs (scanSubsets svcName port endpoints.Subsets scanResults)

/-- `clusterScanner.scanCluster`. -/
def scanCluster (client : K8sClient) : Scan :=
  match client.List with
  | .error _ => .listFailed
  | .ok services => scanServices client services []

/-- The endpoint of an address of a service with a port, if it has one. -/
def endpointOf (svcName : String) (port : Int) (addr : EndpointAddress) : Option Endpoint :=
  match addr.Ip with
  | some ip => some ⟨svcName, ip ++ ":" ++ Itoa port⟩
  | none =>
    match addr.Hostname with
    | some hostname => if hostname ≠ "" then some ⟨svcName, hostname ++ ":" ++ Itoa port⟩ else none
    | none => none

/-- The name and port of a service that is scraped: it is named, not
`pgsql`, annotated `sourcegraph.prometheus/scrape` = `true`, and its
annotation `prometheus.io/port` is a non-empty string that parses. -/
def scraped (svc : Service) : Option (String × Int) :=
  match svc.Metadata with
  | none => none
  | some metadata =>
    match metadata.Name with
    | none => none
    | some svcName =>
      if svcName ≠ "pgsql" ∧ metadata.Annotations "sourcegraph.prometheus/scrape" = "true"
          ∧ metadata.Annotations "prometheus.io/port" ≠ "" then
        (Atoi (metadata.Annotations "prometheus.io/port")).map fun port => (svcName, port)
      else none

/-- The endpoints of the scraped services in service order, then subset
order, then address order. -/
def expectedEndpoints (client : K8sClient) (services : List Service) : List Endpoint :=
  (services.filterMap scraped).flatMap fun np =>
    match client.Get np.1 with
    | .error _ => []
    | .ok endpoints =>
      endpoints.Subsets.flatMap fun subset => subset.Addresses.filterMap (endpointOf np.1 np.2)

/-- The annotations of a service scraped on a port. -/
def scrapeOn (port : String) : String → String := fun key =>
  if key = "sourcegraph.prometheus/scrape" then "true"
  else if key = "prometheus.io/port" then port
  else ""

/-- A cluster with the services `pgsql` (skipped), `gitserver` on port 6060
and `searcher` whose port does not parse. -/
def smallCluster : K8sClient where
  List := .ok
    [⟨some ⟨some "pgsql", scrapeOn "5432"⟩⟩, ⟨some ⟨some "gitserver", scrapeOn "6060"⟩⟩,
      ⟨some ⟨some "searcher", scrapeOn "http"⟩⟩]
  Get := fun name =>
    if name = "gitserver" then
      .ok ⟨[⟨[⟨some "10.0.0.1", none⟩, ⟨none, none⟩]⟩, ⟨[⟨none, some "gitserver-1"⟩]⟩]⟩
    else .ok ⟨[⟨[⟨some "10.0.0.9", none⟩]⟩]⟩

end Debugproxies

namespace Gitlab

open Go

theorem exchanges_length {α : Type} (url : String) (ps : List (List α × String)) :
    (exchanges url ps).length = ps.length := by
  induction ps generalizing url with
  | nil => rfl
  | cons pg ps ih => obtain ⟨items, next⟩ := pg; simp [exchanges, ih]

/-- Over a chain of successful pages the loop consumes one unit of fuel per
page and arrives at the request after the chain with the IDs accumulated. -/
theorem pageLoop_serves {σ α : Type} (list : σ → String → σ × Page α) (render : α → String)
    (c : Option (String × String)) (ps : List (List α × String)) :
    ∀ (s : σ) (url : String) (fuel : Nat) (ids : List String) (log : List (String × Page α)),
      Serves list s url ps →
      pageLoop list render c (ps.length + fuel) s url ids log =
        pageLoop list render c fuel (hostAfter list s url ps) (urlAfter url ps)
          (ids ++ idsOf render ps) (log ++ exchanges url ps) := by
  induction ps with
  | nil => intro s url fuel ids log _; simp [hostAfter, urlAfter, idsOf, exchanges]
  | cons pg ps ih =>
    obtain ⟨items, next⟩ := pg
    intro s url fuel ids log h
    obtain ⟨h1, h2⟩ := h
    have hfuel : (((items, next) :: ps).length + fuel) = (ps.length + fuel) + 1 := by
      simp only [List.length_cons]; omega
    rw [hfuel]
    have hl : list s url = ((list s url).1, Except.ok (items, some next)) := by
      rw [← h1]
    rw [pageLoop, hl]
    simp only
    rw [ih _ _ _ _ _ h2]
    simp [hostAfter, urlAfter, idsOf, exchanges, List.append_assoc]

/-- The loop on a request that fails. -/
theorem pageLoop_error {σ α : Type} (list : σ → String → σ × Page α) (render : α → String)
    (c : Option (String × String)) (s : σ) (url : String) (fuel : Nat) (ids : List String)
    (log : List (String × Page α)) (e : GoError) (h : (list s url).2 = .error e) :
    pageLoop list render c (fuel + 1) s url ids log =
      ⟨(list s url).1, c, log ++ [(url, .error e)], some (some ids, some e)⟩ := by
  have hl : list s url = ((list s url).1, Except.error e) := by rw [← h]
  rw [pageLoop, hl]

/-- The loop on a request answered by a page that names no next page. -/
theorem pageLoop_last {σ α : Type} (list : σ → String → σ × Page α) (render : α → String)
    (c : Option (String × String)) (s : σ) (url : String) (fuel : Nat) (ids : List String)
    (log : List (String × Page α)) (items : List α) (h : (list s url).2 = .ok (items, none)) :
    pageLoop list render c (fuel + 1) s url ids log =
      ⟨(list s url).1, c, log ++ [(url, .ok (items, none))],
        some (some (ids ++ items.map render), none)⟩ := by
  have hl : list s url = ((list s url).1, Except.ok (items, none)) := by rw [← h]
  rw [pageLoop, hl]

/-- The requests a run of the loop adds to the log start with the URL it is
given and are linked by the next-page URLs. -/
theorem pageLoop_log {σ α : Type} (list : σ → String → σ × Page α) (render : α → String)
    (c : Option (String × String)) :
    ∀ (fuel : Nat) (s : σ) (url : String) (ids : List String) (log : List (String × Page α)),
      ∃ rest, (pageLoop list render c fuel s url ids log).requests = log ++ rest ∧
        Linked rest ∧ (∀ x ∈ rest.head?, x.1 = url) ∧ (0 < fuel → rest ≠ []) := by
  intro fuel
  induction fuel with
  | zero =>
    intro s url ids log
    exact ⟨[], by simp [pageLoop], by simp [Linked], by simp, by simp⟩
  | succ fuel ih =>
    intro s url ids log
    rw [pageLoop]
    rcases h : list s url with ⟨s', (err | ⟨items, (_ | u)⟩)⟩
    · exact ⟨[(url, .error err)], rfl, by simp [Linked], by simp, by simp⟩
    · exact ⟨[(url, .ok (items, none))], rfl, by simp [Linked], by simp, by simp⟩
    · obtain ⟨rest, h1, h2, h3, _⟩ :=
        ih s' u (ids ++ items.map render) (log ++ [(url, .ok (items, some u))])
      refine ⟨(url, .ok (items, some u)) :: rest, ?_, ?_, by simp, by simp⟩
      · simp only [h1, List.append_assoc, List.singleton_append]
      · cases rest with
        | nil => simp [Linked]
        | cons y rest =>
          have hy : y.1 = u := h3 y (by simp)
          exact List.Chain'.cons ⟨items, by simp [hy]⟩ h2

/-- On a matching account whose data decodes, `FetchUserPerms` is the loop
over `ListProjects` of the client of the account, started at `projectsURL`. -/
theorem FetchUserPerms_valid {σ : Type} (getData : ExternalAccountData → Except GoError User)
    (p : SudoProvider σ) (fuel : Nat) (s : σ) (account : ExternalAccount) (user : User)
    (hT : account.ServiceType = p.codeHost.ServiceType)
    (hI : account.ServiceID = p.codeHost.ServiceID)
    (hD : getData account.ExternalAccountData = .ok user) :
    FetchUserPerms getData p fuel s (some account) =
      pageLoop (p.GetPATClient p.sudoToken (Itoa user.ID)).ListProjects (fun pr => Itoa pr.ID)
        (some (p.sudoToken, Itoa user.ID)) fuel s projectsURL [] [] := by
  simp [FetchUserPerms, hT, hI, hD]

/-- On a matching repository, `FetchRepoPerms` is the loop over `ListMembers`
of the client without sudo, started at `membersURL`. -/
theorem FetchRepoPerms_valid {σ : Type} (p : SudoProvider σ) (fuel : Nat) (s : σ)
    (repo : ExternalRepoSpec) (hT : repo.ServiceType = p.codeHost.ServiceType)
    (hI : repo.ServiceID = p.codeHost.ServiceID) :
    FetchRepoPerms p fuel s (some repo) =
      pageLoop (p.GetPATClient p.sudoToken "").ListMembers (fun m => Itoa m.ID)
        (some (p.sudoToken, "")) fuel s (membersURL repo) [] [] := by
  simp [FetchRepoPerms, hT, hI]

/-- The loop over a chain of successful pages followed by a request that
fails. -/
theorem pageLoop_chain_error {σ α : Type} (list : σ → String → σ × Page α) (render : α → String)
    (c : Option (String × String)) (ps : List (List α × String)) (s : σ) (url : String)
    (fuel : Nat) (e : GoError) (hfuel : ps.length + 1 ≤ fuel) (hs : Serves list s url ps)
    (he : (list (hostAfter list s url ps) (urlAfter url ps)).2 = .error e) :
    pageLoop list render c fuel s url [] [] =
      ⟨(list (hostAfter list s url ps) (urlAfter url ps)).1, c,
        exchanges url ps ++ [(urlAfter url ps, .error e)],
        some (some (idsOf render ps), some e)⟩ := by
  obtain ⟨extra, rfl⟩ : ∃ extra, fuel = ps.length + (extra + 1) := ⟨fuel - ps.length - 1, by omega⟩
  rw [pageLoop_serves list render c ps s url (extra + 1) [] [] hs,
    pageLoop_error list render c _ _ extra _ _ e he]
  simp

/-- The loop over a chain of successful pages followed by a page that names
no next page. -/
theorem pageLoop_chain_last {σ α : Type} (list : σ → String → σ × Page α) (render : α → String)
    (c : Option (String × String)) (ps : List (List α × String)) (s : σ) (url : String)
    (fuel : Nat) (items : List α) (hfuel : ps.length + 1 ≤ fuel) (hs : Serves list s url ps)
    (hl : (list (hostAfter list s url ps) (urlAfter url ps)).2 = .ok (items, none)) :
    pageLoop list render c fuel s url [] [] =
      ⟨(list (hostAfter list s url ps) (urlAfter url ps)).1, c,
        exchanges url ps ++ [(urlAfter url ps, .ok (items, none))],
        some (some (idsOf render ps ++ items.map render), none)⟩ := by
  obtain ⟨extra, rfl⟩ : ∃ extra, fuel = ps.length + (extra + 1) := ⟨fuel - ps.length - 1, by omega⟩
  rw [pageLoop_serves list render c ps s url (extra + 1) [] [] hs,
    pageLoop_last list render c _ _ extra _ _ items hl]
  simp

/-- The number of rendered IDs of a chain of pages is the number of its
items. -/
theorem idsOf_length {α : Type} (render : α → String) (ps : List (List α × String)) :
    (idsOf render ps).length = (ps.map fun pg => pg.1.length).sum := by
  induction ps with
  | nil => rfl
  | cons pg ps ih =>
    simp only [idsOf, List.flatMap_cons, List.length_append, List.length_map, List.map_cons,
      List.sum_cons] at ih ⊢
    rw [ih]

/-- C1: on an account whose ServiceType or ServiceID differs from the code
host of the provider, `FetchUserPerms` returns the nil slice and the service
mismatch error, obtains no client, issues no request and leaves the host
untouched; on a repository that differs, `FetchRepoPerms` does the same. -/
theorem fetch_service_mismatch {σ : Type} (getData : ExternalAccountData → Except GoError User)
    (p : SudoProvider σ) (fuel : Nat) (s : σ) :
    (∀ account : ExternalAccount,
      account.ServiceType ≠ p.codeHost.ServiceType ∨ account.ServiceID ≠ p.codeHost.ServiceID →
      (FetchUserPerms getData p fuel s (some account)).ret =
          some (none, some (.errorf "service mismatch: want %q - %q but the account has %q - %q"
            [p.codeHost.ServiceType, p.codeHost.ServiceID, account.ServiceType,
              account.ServiceID])) ∧
        (FetchUserPerms getData p fuel s (some account)).client = none ∧
        (FetchUserPerms getData p fuel s (some account)).requests = [] ∧
        (FetchUserPerms getData p fuel s (some account)).host = s) ∧
    (∀ repo : ExternalRepoSpec,
      repo.ServiceType ≠ p.codeHost.ServiceType ∨ repo.ServiceID ≠ p.codeHost.ServiceID →
      (FetchRepoPerms p fuel s (some repo)).ret =
          some (none, some (.errorf "service mismatch: want %q - %q but the repository has %q - %q"
            [p.codeHost.ServiceType, p.codeHost.ServiceID, repo.ServiceType, repo.ServiceID])) ∧
        (FetchRepoPerms p fuel s (some repo)).client = none ∧
        (FetchRepoPerms p fuel s (some repo)).requests = [] ∧
        (FetchRepoPerms p fuel s (some repo)).host = s) := by
  constructor
  · intro account h
    simp only [FetchUserPerms, if_pos h, and_self]
  · intro repo h
    simp only [FetchRepoPerms, if_pos h, and_self]

/-- C1 at an account and a repository of another GitLab instance. -/
theorem fetch_service_mismatch_witness :
    ((FetchUserPerms decodeUser7 (scriptedProvider projectsTwoPages membersTwoPages) 9 0
          (some accountElsewhere)).ret =
        some (none, some (.errorf "service mismatch: want %q - %q but the account has %q - %q"
          ["gitlab", "https://gitlab.com/", "gitlab", "https://gitlab.example.com/"])) ∧
      (FetchUserPerms decodeUser7 (scriptedProvider projectsTwoPages membersTwoPages) 9 0
          (some accountElsewhere)).client = none ∧
      (FetchUserPerms decodeUser7 (scriptedProvider projectsTwoPages membersTwoPages) 9 0
          (some accountElsewhere)).requests = [] ∧
      (FetchUserPerms decodeUser7 (scriptedProvider projectsTwoPages membersTwoPages) 9 0
          (some accountElsewhere)).host = 0) ∧
    ((FetchRepoPerms (scriptedProvider projectsTwoPages membersTwoPages) 9 0
          (some repoElsewhere)).ret =
        some (none, some (.errorf "service mismatch: want %q - %q but the repository has %q - %q"
          ["gitlab", "https://gitlab.com/", "gitlab", "https://gitlab.example.com/"])) ∧
      (FetchRepoPerms (scriptedProvider projectsTwoPages membersTwoPages) 9 0
          (some repoElsewhere)).client = none ∧
      (FetchRepoPerms (scriptedProvider projectsTwoPages membersTwoPages) 9 0
          (some repoElsewhere)).requests = [] ∧
      (FetchRepoPerms (scriptedProvider projectsTwoPages membersTwoPages) 9 0
          (some repoElsewhere)).host = 0) :=
  ⟨(fetch_service_mismatch decodeUser7 (scriptedProvider projectsTwoPages membersTwoPages) 9 0).1
      accountElsewhere (Or.inr (by decide)),
    (fetch_service_mismatch decodeUser7 (scriptedProvider projectsTwoPages membersTwoPages) 9 0).2
      repoElsewhere (Or.inr (by decide))⟩

/-- C2: on a matching account whose data decodes, if the host serves the
pages `ps` (pages 1..k-1, each naming the next URL) and then fails the request
for page k with `e`, `FetchUserPerms` returns the decimal IDs of the projects
of `ps` in encounter order together with `e`, and its requests are exactly the
k - 1 that fetched `ps` followed by the failed one, so that no later page is
requested; `FetchRepoPerms` does the same over member pages; and the rendering
`Itoa` of an ID is its decimal numeral, with a minus sign if it is negative. -/
theorem fetch_partial_on_failure {σ : Type}
    (getData : ExternalAccountData → Except GoError User) (p : SudoProvider σ) (s : σ)
    (fuel : Nat) (e : GoError) :
    (∀ (account : ExternalAccount) (user : User) (ps : List (List Project × String)),
      account.ServiceType = p.codeHost.ServiceType →
      account.ServiceID = p.codeHost.ServiceID →
      getData account.ExternalAccountData = .ok user →
      Serves (p.GetPATClient p.sudoToken (Itoa user.ID)).ListProjects s projectsURL ps →
      ((p.GetPATClient p.sudoToken (Itoa user.ID)).ListProjects
        (hostAfter (p.GetPATClient p.sudoToken (Itoa user.ID)).ListProjects s projectsURL ps)
        (urlAfter projectsURL ps)).2 = .error e →
      ps.length + 1 ≤ fuel →
      (FetchUserPerms getData p fuel s (some account)).ret =
          some (some (ps.flatMap fun pg => pg.1.map fun pr => Itoa pr.ID), some e) ∧
        (FetchUserPerms getData p fuel s (some account)).requests =
          exchanges projectsURL ps ++ [(urlAfter projectsURL ps, .error e)] ∧
        (FetchUserPerms getData p fuel s (some account)).requests.length = ps.length + 1) ∧
    (∀ (repo : ExternalRepoSpec) (ps : List (List Member × String)),
      repo.ServiceType = p.codeHost.ServiceType →
      repo.ServiceID = p.codeHost.ServiceID →
      Serves (p.GetPATClient p.sudoToken "").ListMembers s (membersURL repo) ps →
      ((p.GetPATClient p.sudoToken "").ListMembers
        (hostAfter (p.GetPATClient p.sudoToken "").ListMembers s (membersURL repo) ps)
        (urlAfter (membersURL repo) ps)).2 = .error e →
      ps.length + 1 ≤ fuel →
      (FetchRepoPerms p fuel s (some repo)).ret =
          some (some (ps.flatMap fun pg => pg.1.map fun m => Itoa m.ID), some e) ∧
        (FetchRepoPerms p fuel s (some repo)).requests =
          exchanges (membersURL repo) ps ++ [(urlAfter (membersURL repo) ps, .error e)] ∧
        (FetchRepoPerms p fuel s (some repo)).requests.length = ps.length + 1) ∧
    (∀ n : Nat, Itoa (Int.ofNat n) = String.mk (Nat.toDigits 10 n) ∧
      Itoa (Int.negSucc n) = "-" ++ String.mk (Nat.toDigits 10 (n + 1))) := by
  refine ⟨?_, ?_, fun n => ⟨rfl, rfl⟩⟩
  · intro account user ps hT hI hD hs he hfuel
    rw [FetchUserPerms_valid getData p fuel s account user hT hI hD,
      pageLoop_chain_error _ _ _ ps s projectsURL fuel e hfuel hs he]
    simp [exchanges_length, idsOf]
  · intro repo ps hT hI hs he hfuel
    rw [FetchRepoPerms_valid p fuel s repo hT hI,
      pageLoop_chain_error _ _ _ ps s (membersURL repo) fuel e hfuel hs he]
    simp [exchanges_length, idsOf]

/-- C2 on pages P1, P2, P3 of which P2 fails: the IDs "101", "102" of P1 (for
members "1", "2"), the error of P2, and two requests, the first for the first
URL and the second for the URL that P1 names; P3 is not requested. -/
theorem fetch_partial_on_failure_witness :
    ((FetchUserPerms decodeUser7 (scriptedProvider projectsSecondFails membersSecondFails) 5 0
          (some accountOnGitlab)).ret =
        some (some ["101", "102"], some (.new "502 Bad Gateway")) ∧
      (FetchUserPerms decodeUser7 (scriptedProvider projectsSecondFails membersSecondFails) 5 0
          (some accountOnGitlab)).requests =
        [("projects?min_access_level=20&per_page=100&visibility=private",
            .ok ([⟨101⟩, ⟨102⟩], some "projects?page=2")),
          ("projects?page=2", .error (.new "502 Bad Gateway"))] ∧
      (FetchUserPerms decodeUser7 (scriptedProvider projectsSecondFails membersSecondFails) 5 0
          (some accountOnGitlab)).requests.length = 2) ∧
    ((FetchRepoPerms (scriptedProvider projectsSecondFails membersSecondFails) 5 0
          (some repoOnGitlab)).ret =
        some (some ["1", "2"], some (.new "502 Bad Gateway")) ∧
      (FetchRepoPerms (scriptedProvider projectsSecondFails membersSecondFails) 5 0
          (some repoOnGitlab)).requests =
        [("projects/42/members/all?per_page=100", .ok ([⟨1⟩, ⟨2⟩], some "members?page=2")),
          ("members?page=2", .error (.new "502 Bad Gateway"))] ∧
      (FetchRepoPerms (scriptedProvider projectsSecondFails membersSecondFails) 5 0
          (some repoOnGitlab)).requests.length = 2) ∧
    (Itoa (Int.ofNat 101) = String.mk (Nat.toDigits 10 101) ∧
      Itoa (Int.negSucc 4) = "-" ++ String.mk (Nat.toDigits 10 (4 + 1))) ∧
    Itoa 101 = "101" ∧ Itoa (-5) = "-5" :=
  ⟨(fetch_partial_on_failure decodeUser7 (scriptedProvider projectsSecondFails membersSecondFails)
        0 5 (.new "502 Bad Gateway")).1 accountOnGitlab ⟨7⟩
      [([⟨101⟩, ⟨102⟩], "projects?page=2")] rfl rfl rfl ⟨rfl, trivial⟩ rfl (by decide),
    (fetch_partial_on_failure decodeUser7 (scriptedProvider projectsSecondFails membersSecondFails)
        0 5 (.new "502 Bad Gateway")).2.1 repoOnGitlab
      [([⟨1⟩, ⟨2⟩], "members?page=2")] rfl rfl ⟨rfl, trivial⟩ rfl (by decide),
    ⟨((fetch_partial_on_failure decodeUser7
          (scriptedProvider projectsSecondFails membersSecondFails)
          0 5 (.new "502 Bad Gateway")).2.2 101).1,
      ((fetch_partial_on_failure decodeUser7
          (scriptedProvider projectsSecondFails membersSecondFails)
          0 5 (.new "502 Bad Gateway")).2.2 4).2⟩,
    by decide, by decide⟩

/-- C3: on a matching account whose data decodes, if the host serves the
pages `ps` (pages 1..n-1, each naming the next URL) and then a page `items`
that names no next page, `FetchUserPerms` returns a nil error and the decimal
IDs of all projects of pages 1..n, in page order and within-page order, as
many as there are projects, after exactly n requests; `FetchRepoPerms` does
the same over member pages. -/
theorem fetch_all_pages {σ : Type}
    (getData : ExternalAccountData → Except GoError User) (p : SudoProvider σ) (s : σ)
    (fuel : Nat) :
    (∀ (account : ExternalAccount) (user : User) (ps : List (List Project × String))
      (items : List Project),
      account.ServiceType = p.codeHost.ServiceType →
      account.ServiceID = p.codeHost.ServiceID →
      getData account.ExternalAccountData = .ok user →
      Serves (p.GetPATClient p.sudoToken (Itoa user.ID)).ListProjects s projectsURL ps →
      ((p.GetPATClient p.sudoToken (Itoa user.ID)).ListProjects
        (hostAfter (p.GetPATClient p.sudoToken (Itoa user.ID)).ListProjects s projectsURL ps)
        (urlAfter projectsURL ps)).2 = .ok (items, none) →
      ps.length + 1 ≤ fuel →
      (FetchUserPerms getData p fuel s (some account)).ret =
          some (some ((ps.flatMap fun pg => pg.1.map fun pr => Itoa pr.ID) ++
            items.map fun pr => Itoa pr.ID), none) ∧
        ((ps.flatMap fun pg => pg.1.map fun pr => Itoa pr.ID) ++
            items.map fun pr => Itoa pr.ID).length =
          (ps.map fun pg => pg.1.length).sum + items.length ∧
        (FetchUserPerms getData p fuel s (some account)).requests =
          exchanges projectsURL ps ++ [(urlAfter projectsURL ps, .ok (items, none))] ∧
        (FetchUserPerms getData p fuel s (some account)).requests.length = ps.length + 1) ∧
    (∀ (repo : ExternalRepoSpec) (ps : List (List Member × String)) (items : List Member),
      repo.ServiceType = p.codeHost.ServiceType →
      repo.ServiceID = p.codeHost.ServiceID →
      Serves (p.GetPATClient p.sudoToken "").ListMembers s (membersURL repo) ps →
      ((p.GetPATClient p.sudoToken "").ListMembers
        (hostAfter (p.GetPATClient p.sudoToken "").ListMembers s (membersURL repo) ps)
        (urlAfter (membersURL repo) ps)).2 = .ok (items, none) →
      ps.length + 1 ≤ fuel →
      (FetchRepoPerms p fuel s (some repo)).ret =
          some (some ((ps.flatMap fun pg => pg.1.map fun m => Itoa m.ID) ++
            items.map fun m => Itoa m.ID), none) ∧
        ((ps.flatMap fun pg => pg.1.map fun m => Itoa m.ID) ++
            items.map fun m => Itoa m.ID).length =
          (ps.map fun pg => pg.1.length).sum + items.length ∧
        (FetchRepoPerms p fuel s (some repo)).requests =
          exchanges (membersURL repo) ps ++ [(urlAfter (membersURL repo) ps, .ok (items, none))] ∧
        (FetchRepoPerms p fuel s (some repo)).requests.length = ps.length + 1) := by
  constructor
  · intro account user ps items hT hI hD hs hl hfuel
    rw [FetchUserPerms_valid getData p fuel s account user hT hI hD,
      pageLoop_chain_last _ _ _ ps s projectsURL fuel items hfuel hs hl]
    have hlen := idsOf_length (fun pr : Project => Itoa pr.ID) ps
    simp only [idsOf] at hlen
    simp [exchanges_length, idsOf, hlen]
  · intro repo ps items hT hI hs hl hfuel
    rw [FetchRepoPerms_valid p fuel s repo hT hI,
      pageLoop_chain_last _ _ _ ps s (membersURL repo) fuel items hfuel hs hl]
    have hlen := idsOf_length (fun m : Member => Itoa m.ID) ps
    simp only [idsOf] at hlen
    simp [exchanges_length, idsOf, hlen]

/-- C3 on two pages that share project 101 and member 1: three IDs in page
order, the repeated one kept, after two requests. -/
theorem fetch_all_pages_witness :
    ((FetchUserPerms decodeUser7 (scriptedProvider projectsTwoPages membersTwoPages) 2 0
          (some accountOnGitlab)).ret = some (some ["102", "101", "101"], none) ∧
      ["102", "101", "101"].length = 2 + 1 ∧
      (FetchUserPerms decodeUser7 (scriptedProvider projectsTwoPages membersTwoPages) 2 0
          (some accountOnGitlab)).requests =
        [(projectsURL, .ok ([⟨102⟩, ⟨101⟩], some "projects?page=2")),
          ("projects?page=2", .ok ([⟨101⟩], none))] ∧
      (FetchUserPerms decodeUser7 (scriptedProvider projectsTwoPages membersTwoPages) 2 0
          (some accountOnGitlab)).requests.length = 2) ∧
    ((FetchRepoPerms (scriptedProvider projectsTwoPages membersTwoPages) 2 0
          (some repoOnGitlab)).ret = some (some ["2", "1", "1"], none) ∧
      ["2", "1", "1"].length = 2 + 1 ∧
      (FetchRepoPerms (scriptedProvider projectsTwoPages membersTwoPages) 2 0
          (some repoOnGitlab)).requests =
        [(membersURL repoOnGitlab, .ok ([⟨2⟩, ⟨1⟩], some "members?page=2")),
          ("members?page=2", .ok ([⟨1⟩], none))] ∧
      (FetchRepoPerms (scriptedProvider projectsTwoPages membersTwoPages) 2 0
          (some repoOnGitlab)).requests.length = 2) :=
  ⟨(fetch_all_pages decodeUser7 (scriptedProvider projectsTwoPages membersTwoPages) 0 2).1
      accountOnGitlab ⟨7⟩ [([⟨102⟩, ⟨101⟩], "projects?page=2")] [⟨101⟩]
      rfl rfl rfl ⟨rfl, trivial⟩ rfl (by decide),
    (fetch_all_pages decodeUser7 (scriptedProvider projectsTwoPages membersTwoPages) 0 2).2
      repoOnGitlab [([⟨2⟩, ⟨1⟩], "members?page=2")] [⟨1⟩]
      rfl rfl ⟨rfl, trivial⟩ rfl (by decide)⟩

/-- C6, as the claim states it, fails: the first URL that `FetchUserPerms`
requests for a matching account is not
`projects?visibility=private&min_access_level=20&per_page=100`; `Encode`
writes the parameters sorted by key. -/
theorem first_projects_url_not_in_insertion_order :
    accountOnGitlab.ServiceType =
        (scriptedProvider projectsTwoPages membersTwoPages).codeHost.ServiceType ∧
      accountOnGitlab.ServiceID =
        (scriptedProvider projectsTwoPages membersTwoPages).codeHost.ServiceID ∧
      ((FetchUserPerms decodeUser7 (scriptedProvider projectsTwoPages membersTwoPages) 2 0
          (some accountOnGitlab)).requests.map Prod.fst).head? =
        some "projects?min_access_level=20&per_page=100&visibility=private" ∧
      ((FetchUserPerms decodeUser7 (scriptedProvider projectsTwoPages membersTwoPages) 2 0
          (some accountOnGitlab)).requests.map Prod.fst).head? ≠
        some "projects?visibility=private&min_access_level=20&per_page=100" := by
  decide

/-- C6, amended: for a matching account whose data decodes, the first URL
`FetchUserPerms` requests is
`projects?min_access_level=20&per_page=100&visibility=private`; for a matching
repository with ID `id`, the first URL `FetchRepoPerms` requests is
`projects/id/members/all?per_page=100`; and in both every later request uses,
unchanged, the next-page URL of the answer before it. -/
theorem fetch_request_urls {σ : Type}
    (getData : ExternalAccountData → Except GoError User) (p : SudoProvider σ) (s : σ)
    (fuel : Nat) :
    (∀ (account : ExternalAccount) (user : User),
      account.ServiceType = p.codeHost.ServiceType →
      account.ServiceID = p.codeHost.ServiceID →
      getData account.ExternalAccountData = .ok user →
      ((FetchUserPerms getData p (fuel + 1) s (some account)).requests.map Prod.fst).head? =
          some "projects?min_access_level=20&per_page=100&visibility=private" ∧
        Linked (FetchUserPerms getData p (fuel + 1) s (some account)).requests) ∧
    (∀ repo : ExternalRepoSpec,
      repo.ServiceType = p.codeHost.ServiceType →
      repo.ServiceID = p.codeHost.ServiceID →
      ((FetchRepoPerms p (fuel + 1) s (some repo)).requests.map Prod.fst).head? =
          some ("projects/" ++ repo.ID ++ "/members/all?per_page=100") ∧
        Linked (FetchRepoPerms p (fuel + 1) s (some repo)).requests) := by
  constructor
  · intro account user hT hI hD
    rw [FetchUserPerms_valid getData p (fuel + 1) s account user hT hI hD]
    obtain ⟨rest, h1, h2, h3, h4⟩ :=
      pageLoop_log (p.GetPATClient p.sudoToken (Itoa user.ID)).ListProjects
        (fun pr => Itoa pr.ID) (some (p.sudoToken, Itoa user.ID)) (fuel + 1) s projectsURL [] []
    rw [h1, List.nil_append]
    refine ⟨?_, h2⟩
    cases rest with
    | nil => exact absurd rfl (h4 (Nat.succ_pos _))
    | cons x rest =>
      have hx : x.1 = projectsURL := h3 x (by simp)
      have hu : projectsURL = "projects?min_access_level=20&per_page=100&visibility=private" := by
        decide
      simp [hx, hu]
  · intro repo hT hI
    rw [FetchRepoPerms_valid p (fuel + 1) s repo hT hI]
    obtain ⟨rest, h1, h2, h3, h4⟩ :=
      pageLoop_log (p.GetPATClient p.sudoToken "").ListMembers
        (fun m => Itoa m.ID) (some (p.sudoToken, "")) (fuel + 1) s (membersURL repo) [] []
    rw [h1, List.nil_append]
    refine ⟨?_, h2⟩
    cases rest with
    | nil => exact absurd rfl (h4 (Nat.succ_pos _))
    | cons x rest =>
      have hx : x.1 = membersURL repo := h3 x (by simp)
      have hu : membersURL repo = "projects/" ++ repo.ID ++ "/members/all?per_page=100" := by
        have hq : (Values.make.Add "per_page" "100").Encode = "per_page=100" := by decide
        have hc : "/members/all?" ++ "per_page=100" = "/members/all?per_page=100" := by decide
        simp only [membersURL, hq, String.append_assoc, hc]
      simp [hx, hu]

/-- C6, amended, at a matching account and a matching repository over two
pages. -/
theorem fetch_request_urls_witness :
    (((FetchUserPerms decodeUser7 (scriptedProvider projectsTwoPages membersTwoPages) (1 + 1) 0
          (some accountOnGitlab)).requests.map Prod.fst).head? =
        some "projects?min_access_level=20&per_page=100&visibility=private" ∧
      Linked (FetchUserPerms decodeUser7 (scriptedProvider projectsTwoPages membersTwoPages)
        (1 + 1) 0 (some accountOnGitlab)).requests) ∧
    (((FetchRepoPerms (scriptedProvider projectsTwoPages membersTwoPages) (1 + 1) 0
          (some repoOnGitlab)).requests.map Prod.fst).head? =
        some ("projects/" ++ repoOnGitlab.ID ++ "/members/all?per_page=100") ∧
      Linked (FetchRepoPerms (scriptedProvider projectsTwoPages membersTwoPages) (1 + 1) 0
        (some repoOnGitlab)).requests) :=
  ⟨(fetch_request_urls decodeUser7 (scriptedProvider projectsTwoPages membersTwoPages) 0 1).1
      accountOnGitlab ⟨7⟩ rfl rfl rfl,
    (fetch_request_urls decodeUser7 (scriptedProvider projectsTwoPages membersTwoPages) 0 1).2
      repoOnGitlab rfl rfl⟩

end Gitlab

namespace Authz

open Go

/-- The straight-line code of `schedule` is the eight steps in sequence with
abort at the first error. -/
theorem schedule_eq_runFrom {σ : Type} (sc : Scans σ) (syncer : PermsSyncer σ) (w : σ) :
    schedule sc syncer w = runFrom sc syncer 8 0 (w, ⟨[], []⟩) [] := by
  unfold schedule
  simp only [runFrom, stepAt, stepEvent, stageMessage]
  rcases h0 : sc.scanUsersWithNoPerms w with ⟨w0, ids0, _ | e0⟩ <;> simp only [h0]
  · rcases h1 : syncer.ScheduleUsers w0 .PriorityHigh ids0 with ⟨w1, _ | e1⟩ <;> simp only [h1]
    · rcases h2 : sc.scanReposWithNoPerms w1 with ⟨w2, ids2, _ | e2⟩ <;> simp only [h2]
      · rcases h3 : syncer.ScheduleRepos w2 .PriorityHigh ids2 with ⟨w3, _ | e3⟩ <;>
          simp only [h3]
        · rcases h4 : sc.scanUsersWithOldestPerms w3 with ⟨w4, ids4, _ | e4⟩ <;> simp only [h4]
          · rcases h5 : syncer.ScheduleUsers w4 .PriorityLow ids4 with ⟨w5, _ | e5⟩ <;>
              simp only [h5]
            · rcases h6 : sc.scanReposWithOldestPerms w5 with ⟨w6, ids6, _ | e6⟩ <;>
                simp only [h6]
              · rcases h7 : syncer.ScheduleRepos w6 .PriorityLow ids6 with ⟨w7, _ | e7⟩ <;>
                  simp [h7]
              · simp
            · simp
          · simp
        · simp
      · simp
    · simp
  · simp

/-- While the steps before step `k` succeed, the run arrives at step `k`
having made exactly their calls. -/
theorem runFrom_succeeding {σ : Type} (sc : Scans σ) (syncer : PermsSyncer σ) (w : σ) :
    ∀ (k n : Nat), (∀ j, j < k → stepError sc syncer w j = none) →
      runFrom sc syncer (k + n) 0 (w, ⟨[], []⟩) [] =
        runFrom sc syncer n k (stateBefore sc syncer w k)
          ((List.range k).map (callOf sc syncer w)) := by
  intro k
  induction k with
  | zero => intro n _; simp [stateBefore]
  | succ k ih =>
    intro n h
    have hk : stepError sc syncer w k = none := h k (Nat.lt_succ_self k)
    have hstep : stepAt sc syncer k (stateBefore sc syncer w k) =
        (stateBefore sc syncer w (k + 1), none) := by
      unfold stepError at hk
      rw [← hk]
      rfl
    have e1 : k + 1 + n = k + (n + 1) := by omega
    rw [e1, ih (n + 1) (fun j hj => h j (Nat.lt_succ_of_lt hj)), runFrom, hstep]
    simp only [List.range_succ, List.map_append, List.map_cons, List.map_nil, callOf]

/-- If the steps before step `k` succeed and step `k` fails, the run stops
there with the wrapped error. -/
theorem runFrom_abort {σ : Type} (sc : Scans σ) (syncer : PermsSyncer σ) (w : σ)
    (k n : Nat) (e : GoError) (hprev : ∀ j, j < k → stepError sc syncer w j = none)
    (hk : stepError sc syncer w k = some e) :
    runFrom sc syncer (k + (n + 1)) 0 (w, ⟨[], []⟩) [] =
      ⟨(stateBefore sc syncer w (k + 1)).1, (List.range (k + 1)).map (callOf sc syncer w),
        some (.wrap e (stageMessage k))⟩ := by
  have hstep : stepAt sc syncer k (stateBefore sc syncer w k) =
      (stateBefore sc syncer w (k + 1), some e) := by
    unfold stepError at hk
    rw [← hk]
    rfl
  rw [runFrom_succeeding sc syncer w k (n + 1) hprev, runFrom, hstep]
  simp only [List.range_succ, List.map_append, List.map_cons, List.map_nil, callOf]

/-- If the steps before step `k` succeed and step `k` fails with `e`,
`schedule` stops after step `k` and returns `e` wrapped. -/
theorem schedule_abort_eq {σ : Type} (sc : Scans σ) (syncer : PermsSyncer σ) (w : σ)
    (k : Nat) (e : GoError) (hk8 : k < 8)
    (hprev : ∀ j, j < k → stepError sc syncer w j = none)
    (hk : stepError sc syncer w k = some e) :
    schedule sc syncer w =
      ⟨(stateBefore sc syncer w (k + 1)).1, (List.range (k + 1)).map (callOf sc syncer w),
        some (.wrap e (stageMessage k))⟩ := by
  have e8 : 8 = k + ((7 - k) + 1) := by omega
  rw [schedule_eq_runFrom]
  conv => lhs; rw [e8]
  exact runFrom_abort sc syncer w k (7 - k) e hprev hk

/-- If all eight steps succeed, `schedule` makes all eight calls and
returns nil. -/
theorem schedule_ok_eq {σ : Type} (sc : Scans σ) (syncer : PermsSyncer σ) (w : σ)
    (hall : ∀ j, j < 8 → stepError sc syncer w j = none) :
    schedule sc syncer w =
      ⟨(stateBefore sc syncer w 8).1, (List.range 8).map (callOf sc syncer w), none⟩ := by
  rw [schedule_eq_runFrom]
  have h := runFrom_succeeding sc syncer w 8 0 hall
  simp only [Nat.add_zero] at h
  rw [h]
  rfl

/-- Either all eight steps succeed or there is a first step that fails. -/
theorem first_error {σ : Type} (sc : Scans σ) (syncer : PermsSyncer σ) (w : σ) :
    (∀ j, j < 8 → stepError sc syncer w j = none) ∨
      ∃ k e, k < 8 ∧ (∀ j, j < k → stepError sc syncer w j = none) ∧
        stepError sc syncer w k = some e := by
  by_cases hall : ∀ j, j < 8 → stepError sc syncer w j = none
  · exact Or.inl hall
  · right
    push_neg at hall
    classical
    have hex : ∃ j, j < 8 ∧ stepError sc syncer w j ≠ none := hall
    have hspec := Nat.find_spec hex
    have hmin : ∀ j, j < Nat.find hex → stepError sc syncer w j = none := by
      intro j hj
      by_contra hne
      exact Nat.find_min hex hj ⟨lt_trans hj hspec.1, hne⟩
    obtain ⟨e, he⟩ := Option.ne_none_iff_exists'.mp hspec.2
    exact ⟨Nat.find hex, e, hspec.1, hmin, he⟩

/-- The calls `schedule` makes are those of the first steps, in order. -/
theorem schedule_events_initial {σ : Type} (sc : Scans σ) (syncer : PermsSyncer σ) (w : σ) :
    ∃ k, k ≤ 8 ∧ (schedule sc syncer w).events = (List.range k).map (callOf sc syncer w) := by
  rcases first_error sc syncer w with hall | ⟨k, e, hk8, hprev, hk⟩
  · exact ⟨8, le_refl 8, by rw [schedule_ok_eq sc syncer w hall]⟩
  · exact ⟨k + 1, hk8, by rw [schedule_abort_eq sc syncer w k e hk8 hprev hk]⟩

/-- C5: `schedule` is eight steps in order.  If the steps before step `k`
succeed and step `k` returns the error `e`, then `schedule` returns `e`
wrapped with the message of that stage, the calls made are exactly those of
the steps up to `k` (no later scan, no later enqueue), and the state is the
one step `k` left; and `schedule` returns nil exactly when all eight steps
succeed. -/
theorem schedule_aborts_at_first_error {σ : Type} (sc : Scans σ) (syncer : PermsSyncer σ)
    (w : σ) :
    (∀ (k : Nat) (e : GoError), k < 8 →
      (∀ j, j < k → stepError sc syncer w j = none) →
      stepError sc syncer w k = some e →
      (schedule sc syncer w).err = some (.wrap e (stageMessage k)) ∧
        (schedule sc syncer w).events = (List.range (k + 1)).map (callOf sc syncer w) ∧
        (schedule sc syncer w).world = (stateBefore sc syncer w (k + 1)).1) ∧
    ((schedule sc syncer w).err = none ↔ ∀ j, j < 8 → stepError sc syncer w j = none) := by
  refine ⟨fun k e hk8 hprev hk => ?_, ?_, ?_⟩
  · rw [schedule_abort_eq sc syncer w k e hk8 hprev hk]
    exact ⟨rfl, rfl, rfl⟩
  · intro hnil
    rcases first_error sc syncer w with hall | ⟨k, e, hk8, hprev, hk⟩
    · exact hall
    · rw [schedule_abort_eq sc syncer w k e hk8 hprev hk] at hnil
      simp at hnil
  · intro hall
    rw [schedule_ok_eq sc syncer w hall]

/-- C5 when the second scan fails (step 2 counting from 0): the error is
wrapped with "scan repositories with no permissions" and only the first scan,
the first enqueue and the second scan have run. -/
theorem schedule_aborts_at_first_error_witness :
    (schedule secondScanFails acceptingSyncer 0).err =
        some (.wrap (.new "database is down") "scan repositories with no permissions") ∧
      (schedule secondScanFails acceptingSyncer 0).events =
        [.scanUsersWithNoPerms, .ScheduleUsers .PriorityHigh [7, 9], .scanReposWithNoPerms] ∧
      (schedule secondScanFails acceptingSyncer 0).world = 3 :=
  (schedule_aborts_at_first_error secondScanFails acceptingSyncer 0).1 2
    (.new "database is down") (by decide)
    (fun j hj => by
      match j, hj with
      | 0, _ => rfl
      | 1, _ => rfl)
    rfl

/-- C4: with scans that succeed and a syncer that accepts every enqueue, one
call of `schedule` returns nil after exactly eight calls: each scan followed
at once by the enqueue of its result, in the order users with no permissions
at High, repositories with no permissions at High, users with oldest
permissions at Low, repositories with oldest permissions at Low; the enqueue
calls are these four, and this holds from every state, so in every round. -/
theorem schedule_four_enqueues_in_order {σ : Type} (sc : Scans σ) (syncer : PermsSyncer σ)
    (w : σ)
    (hscan : ∀ w', (sc.scanUsersWithNoPerms w').2.2 = none ∧
      (sc.scanReposWithNoPerms w').2.2 = none ∧ (sc.scanUsersWithOldestPerms w').2.2 = none ∧
      (sc.scanReposWithOldestPerms w').2.2 = none)
    (hsync : ∀ w' priority ids, (syncer.ScheduleUsers w' priority ids).2 = none ∧
      (syncer.ScheduleRepos w' priority ids).2 = none) :
    (schedule sc syncer w).err = none ∧
      (schedule sc syncer w).events =
        [.scanUsersWithNoPerms,
          .ScheduleUsers .PriorityHigh (sc.scanUsersWithNoPerms w).2.1,
          .scanReposWithNoPerms,
          .ScheduleRepos .PriorityHigh
            (sc.scanReposWithNoPerms (stateBefore sc syncer w 2).1).2.1,
          .scanUsersWithOldestPerms,
          .ScheduleUsers .PriorityLow
            (sc.scanUsersWithOldestPerms (stateBefore sc syncer w 4).1).2.1,
          .scanReposWithOldestPerms,
          .ScheduleRepos .PriorityLow
            (sc.scanReposWithOldestPerms (stateBefore sc syncer w 6).1).2.1] ∧
      (schedule sc syncer w).events.filter Event.isEnqueue =
        [.ScheduleUsers .PriorityHigh (sc.scanUsersWithNoPerms w).2.1,
          .ScheduleRepos .PriorityHigh
            (sc.scanReposWithNoPerms (stateBefore sc syncer w 2).1).2.1,
          .ScheduleUsers .PriorityLow
            (sc.scanUsersWithOldestPerms (stateBefore sc syncer w 4).1).2.1,
          .ScheduleRepos .PriorityLow
            (sc.scanReposWithOldestPerms (stateBefore sc syncer w 6).1).2.1] := by
  have hall : ∀ j, j < 8 → stepError sc syncer w j = none := by
    intro j hj
    unfold stepError
    match j, hj with
    | 0, _ => exact (hscan _).1
    | 1, _ => exact (hsync _ _ _).1
    | 2, _ => exact (hscan _).2.1
    | 3, _ => exact (hsync _ _ _).2
    | 4, _ => exact (hscan _).2.2.1
    | 5, _ => exact (hsync _ _ _).1
    | 6, _ => exact (hscan _).2.2.2
    | 7, _ => exact (hsync _ _ _).2
  rw [schedule_ok_eq sc syncer w hall]
  exact ⟨rfl, rfl, rfl⟩

/-- C4 with scans that find IDs and a syncer that accepts them. -/
theorem schedule_four_enqueues_in_order_witness :
    (schedule findingScans acceptingSyncer 0).err = none ∧
      (schedule findingScans acceptingSyncer 0).events =
        [.scanUsersWithNoPerms, .ScheduleUsers .PriorityHigh [7, 9],
          .scanReposWithNoPerms, .ScheduleRepos .PriorityHigh [102],
          .scanUsersWithOldestPerms, .ScheduleUsers .PriorityLow [7],
          .scanReposWithOldestPerms, .ScheduleRepos .PriorityLow []] ∧
      (schedule findingScans acceptingSyncer 0).events.filter Event.isEnqueue =
        [.ScheduleUsers .PriorityHigh [7, 9], .ScheduleRepos .PriorityHigh [102],
          .ScheduleUsers .PriorityLow [7], .ScheduleRepos .PriorityLow []] :=
  schedule_four_enqueues_in_order findingScans acceptingSyncer 0
    (fun _ => ⟨rfl, rfl, rfl, rfl⟩) (fun _ _ _ => ⟨rfl, rfl⟩)

/-- C8, as the claim states it for every syncer, fails: the four scans of
the source return empty results without error, yet with a syncer that rejects
the enqueue `schedule` returns an error. -/
theorem schedule_empty_scans_rejecting_syncer :
    (∀ w : Nat, ((sourceScans Nat).scanUsersWithNoPerms w).2 = ([], none) ∧
      ((sourceScans Nat).scanReposWithNoPerms w).2 = ([], none) ∧
      ((sourceScans Nat).scanUsersWithOldestPerms w).2 = ([], none) ∧
      ((sourceScans Nat).scanReposWithOldestPerms w).2 = ([], none)) ∧
    (schedule (sourceScans Nat) rejectingSyncer 0).err =
      some (.wrap (.new "syncer is shutting down")
        "schedule requests for users with no permissions") ∧
    (schedule (sourceScans Nat) rejectingSyncer 0).err ≠ none :=
  ⟨fun _ => ⟨rfl, rfl, rfl, rfl⟩, rfl, by decide⟩

/-- C8, amended: if all four scans return an empty result with no error, then
for every syncer no call of the round hands a Subject to the syncer; if the
syncer accepts the enqueue calls `schedule` returns no error, having made the
four enqueue calls with no ID; and if the syncer rejects one, the step that
fails first is an enqueue, `schedule` returns its error wrapped with the
message of that stage and makes no later call; so `schedule` returns no error
exactly when the syncer accepts all four enqueue calls. -/
theorem schedule_empty_scans {σ : Type} (sc : Scans σ) (syncer : PermsSyncer σ) (w : σ)
    (hempty : ∀ w', (sc.scanUsersWithNoPerms w').2 = ([], none) ∧
      (sc.scanReposWithNoPerms w').2 = ([], none) ∧
      (sc.scanUsersWithOldestPerms w').2 = ([], none) ∧
      (sc.scanReposWithOldestPerms w').2 = ([], none)) :
    (∀ ev, ev ∈ (schedule sc syncer w).events → ev.enqueued = []) ∧
    ((∀ w' priority, (syncer.ScheduleUsers w' priority []).2 = none ∧
        (syncer.ScheduleRepos w' priority []).2 = none) →
      (schedule sc syncer w).err = none ∧
        (schedule sc syncer w).events =
          [.scanUsersWithNoPerms, .ScheduleUsers .PriorityHigh [],
            .scanReposWithNoPerms, .ScheduleRepos .PriorityHigh [],
            .scanUsersWithOldestPerms, .ScheduleUsers .PriorityLow [],
            .scanReposWithOldestPerms, .ScheduleRepos .PriorityLow []]) ∧
    (stepError sc syncer w 0 = none ∧ stepError sc syncer w 2 = none ∧
      stepError sc syncer w 4 = none ∧ stepError sc syncer w 6 = none ∧
      stepError sc syncer w 1 =
        (syncer.ScheduleUsers (stateBefore sc syncer w 1).1 .PriorityHigh []).2 ∧
      stepError sc syncer w 3 =
        (syncer.ScheduleRepos (stateBefore sc syncer w 3).1 .PriorityHigh []).2 ∧
      stepError sc syncer w 5 =
        (syncer.ScheduleUsers (stateBefore sc syncer w 5).1 .PriorityLow []).2 ∧
      stepError sc syncer w 7 =
        (syncer.ScheduleRepos (stateBefore sc syncer w 7).1 .PriorityLow []).2) ∧
    (∀ (k : Nat) (e : GoError), k < 8 →
      (∀ j, j < k → stepError sc syncer w j = none) →
      stepError sc syncer w k = some e →
      (k = 1 ∨ k = 3 ∨ k = 5 ∨ k = 7) ∧
        (schedule sc syncer w).err = some (.wrap e (stageMessage k)) ∧
        (schedule sc syncer w).events =
          ([.scanUsersWithNoPerms, .ScheduleUsers .PriorityHigh [],
            .scanReposWithNoPerms, .ScheduleRepos .PriorityHigh [],
            .scanUsersWithOldestPerms, .ScheduleUsers .PriorityLow [],
            .scanReposWithOldestPerms, .ScheduleRepos .PriorityLow []] : List Event).take
              (k + 1)) ∧
    ((schedule sc syncer w).err = none ↔
      (syncer.ScheduleUsers (stateBefore sc syncer w 1).1 .PriorityHigh []).2 = none ∧
      (syncer.ScheduleRepos (stateBefore sc syncer w 3).1 .PriorityHigh []).2 = none ∧
      (syncer.ScheduleUsers (stateBefore sc syncer w 5).1 .PriorityLow []).2 = none ∧
      (syncer.ScheduleRepos (stateBefore sc syncer w 7).1 .PriorityLow []).2 = none) := by
  have hcall : (List.range 8).map (callOf sc syncer w) =
      [.scanUsersWithNoPerms, .ScheduleUsers .PriorityHigh [],
        .scanReposWithNoPerms, .ScheduleRepos .PriorityHigh [],
        .scanUsersWithOldestPerms, .ScheduleUsers .PriorityLow [],
        .scanReposWithOldestPerms, .ScheduleRepos .PriorityLow []] := by
    simp [List.range_succ, callOf, stepEvent, stateBefore, stepAt, hempty]
  have hscan : stepError sc syncer w 0 = none ∧ stepError sc syncer w 2 = none ∧
      stepError sc syncer w 4 = none ∧ stepError sc syncer w 6 = none := by
    refine ⟨?_, ?_, ?_, ?_⟩ <;> simp [stepError, stepAt, hempty]
  have h1 : stepError sc syncer w 1 =
      (syncer.ScheduleUsers (stateBefore sc syncer w 1).1 .PriorityHigh []).2 := by
    simp [stepError, stepAt, stateBefore, hempty]
  have h3 : stepError sc syncer w 3 =
      (syncer.ScheduleRepos (stateBefore sc syncer w 3).1 .PriorityHigh []).2 := by
    simp [stepError, stepAt, stateBefore, hempty]
  have h5 : stepError sc syncer w 5 =
      (syncer.ScheduleUsers (stateBefore sc syncer w 5).1 .PriorityLow []).2 := by
    simp [stepError, stepAt, stateBefore, hempty]
  have h7 : stepError sc syncer w 7 =
      (syncer.ScheduleRepos (stateBefore sc syncer w 7).1 .PriorityLow []).2 := by
    simp [stepError, stepAt, stateBefore, hempty]
  have hrange : ∀ k, k < 8 → (List.range (k + 1)).map (callOf sc syncer w) =
      ((List.range 8).map (callOf sc syncer w)).take (k + 1) := by
    intro k hk
    rw [← List.map_take]
    congr 1
    interval_cases k <;> decide
  refine ⟨?_, ?_, ⟨hscan.1, hscan.2.1, hscan.2.2.1, hscan.2.2.2, h1, h3, h5, h7⟩, ?_, ?_⟩
  · intro ev hev
    obtain ⟨k, hk, hevents⟩ := schedule_events_initial sc syncer w
    rw [hevents] at hev
    have hsub : ev ∈ (List.range 8).map (callOf sc syncer w) := by
      obtain ⟨j, hj, rfl⟩ := List.mem_map.mp hev
      exact List.mem_map.mpr ⟨j, by simp only [List.mem_range] at hj ⊢; omega, rfl⟩
    rw [hcall] at hsub
    simp only [List.mem_cons, List.mem_singleton, List.not_mem_nil, or_false] at hsub
    rcases hsub with h | h | h | h | h | h | h | h <;> subst h <;> rfl
  · intro hsync
    have hall : ∀ j, j < 8 → stepError sc syncer w j = none := by
      intro j hj
      match j, hj with
      | 0, _ => exact hscan.1
      | 1, _ => rw [h1]; exact (hsync _ _).1
      | 2, _ => exact hscan.2.1
      | 3, _ => rw [h3]; exact (hsync _ _).2
      | 4, _ => exact hscan.2.2.1
      | 5, _ => rw [h5]; exact (hsync _ _).1
      | 6, _ => exact hscan.2.2.2
      | 7, _ => rw [h7]; exact (hsync _ _).2
    rw [schedule_ok_eq sc syncer w hall, hcall]
    exact ⟨rfl, rfl⟩
  · intro k e hk8 hprev hk
    rw [schedule_abort_eq sc syncer w k e hk8 hprev hk]
    refine ⟨?_, rfl, ?_⟩
    · match k, hk8 with
      | 0, _ => rw [hscan.1] at hk; exact absurd hk (by simp)
      | 1, _ => exact Or.inl rfl
      | 2, _ => rw [hscan.2.1] at hk; exact absurd hk (by simp)
      | 3, _ => exact Or.inr (Or.inl rfl)
      | 4, _ => rw [hscan.2.2.1] at hk; exact absurd hk (by simp)
      | 5, _ => exact Or.inr (Or.inr (Or.inl rfl))
      | 6, _ => rw [hscan.2.2.2] at hk; exact absurd hk (by simp)
      | 7, _ => exact Or.inr (Or.inr (Or.inr rfl))
    · show (List.range (k + 1)).map (callOf sc syncer w) = _
      rw [hrange k hk8, hcall]
  · constructor
    · intro hnil
      rcases first_error sc syncer w with hall | ⟨k, e, hk8, hprev, hk⟩
      · exact ⟨h1 ▸ hall 1 (by decide), h3 ▸ hall 3 (by decide), h5 ▸ hall 5 (by decide),
          h7 ▸ hall 7 (by decide)⟩
      · rw [schedule_abort_eq sc syncer w k e hk8 hprev hk] at hnil
        simp at hnil
    · intro hacc
      have hall : ∀ j, j < 8 → stepError sc syncer w j = none := by
        intro j hj
        match j, hj with
        | 0, _ => exact hscan.1
        | 1, _ => rw [h1]; exact hacc.1
        | 2, _ => exact hscan.2.1
        | 3, _ => rw [h3]; exact hacc.2.1
        | 4, _ => exact hscan.2.2.1
        | 5, _ => rw [h5]; exact hacc.2.2.1
        | 6, _ => exact hscan.2.2.2
        | 7, _ => rw [h7]; exact hacc.2.2.2
      rw [schedule_ok_eq sc syncer w hall]

/-- C8, amended, at the four scans of the source: with a syncer that accepts,
no error and four enqueue calls without ID; with a syncer that accepts users
and rejects repositories, the second enqueue (step 3 counting from 0) fails,
`schedule` returns its error wrapped with "schedule requests for repositories
with no permissions" and stops after four calls, none of which carries an
ID. -/
theorem schedule_empty_scans_witness :
    (∀ ev, ev ∈ (schedule (sourceScans Nat) acceptingSyncer 0).events → ev.enqueued = []) ∧
    ((schedule (sourceScans Nat) acceptingSyncer 0).err = none ∧
      (schedule (sourceScans Nat) acceptingSyncer 0).events =
        [.scanUsersWithNoPerms, .ScheduleUsers .PriorityHigh [],
          .scanReposWithNoPerms, .ScheduleRepos .PriorityHigh [],
          .scanUsersWithOldestPerms, .ScheduleUsers .PriorityLow [],
          .scanReposWithOldestPerms, .ScheduleRepos .PriorityLow []]) ∧
    (∀ ev, ev ∈ (schedule (sourceScans Nat) repoRejectingSyncer 0).events → ev.enqueued = []) ∧
    ((3 = 1 ∨ 3 = 3 ∨ 3 = 5 ∨ 3 = 7) ∧
      (schedule (sourceScans Nat) repoRejectingSyncer 0).err =
        some (.wrap (.new "repository queue is full")
          "schedule requests for repositories with no permissions") ∧
      (schedule (sourceScans Nat) repoRejectingSyncer 0).events =
        [.scanUsersWithNoPerms, .ScheduleUsers .PriorityHigh [],
          .scanReposWithNoPerms, .ScheduleRepos .PriorityHigh []]) :=
  ⟨(schedule_empty_scans (sourceScans Nat) acceptingSyncer 0 (fun _ => ⟨rfl, rfl, rfl, rfl⟩)).1,
    (schedule_empty_scans (sourceScans Nat) acceptingSyncer 0
      (fun _ => ⟨rfl, rfl, rfl, rfl⟩)).2.1 (fun _ _ => ⟨rfl, rfl⟩),
    (schedule_empty_scans (sourceScans Nat) repoRejectingSyncer 0
      (fun _ => ⟨rfl, rfl, rfl, rfl⟩)).1,
    (schedule_empty_scans (sourceScans Nat) repoRejectingSyncer 0
      (fun _ => ⟨rfl, rfl, rfl, rfl⟩)).2.2.2.1 3 (.new "repository queue is full") (by decide)
      (fun j hj => by
        match j, hj with
        | 0, _ => rfl
        | 1, _ => rfl
        | 2, _ => rfl)
      rfl⟩

/-- A run of the loop invokes `schedule` once for every tick the `select`
takes, and for nothing else. -/
theorem exec_rounds_length {σ : Type} (sc : Scans σ) (syncer : PermsSyncer σ) :
    ∀ (tr : List Action) (l l' : Loop σ), Loop.exec sc syncer l tr = some l' →
      l'.rounds.length = l.rounds.length + tr.count .takeTick := by
  intro tr
  induction tr with
  | nil =>
    intro l l' h
    simp only [Loop.exec, Option.some.injEq] at h
    subst h
    simp
  | cons a tr ih =>
    intro l l' h
    rw [Loop.exec] at h
    cases hstep : l.step sc syncer a with
    | none => rw [hstep] at h; exact absurd h (by simp)
    | some l1 =>
      rw [hstep] at h
      have h1 := ih l1 l' h
      cases a with
      | tickFires =>
        simp only [Loop.step] at hstep
        split at hstep
        · exact absurd hstep (by simp)
        · simp only [Option.some.injEq] at hstep
          subst hstep
          simpa using h1
      | cancel =>
        simp only [Loop.step, Option.some.injEq] at hstep
        subst hstep
        simpa using h1
      | takeTick =>
        simp only [Loop.step] at hstep
        split at hstep
        · simp only [Option.some.injEq] at hstep
          subst hstep
          simp only [List.length_append, List.length_singleton] at h1
          simp only [List.count_cons_self]
          omega
        · exact absurd hstep (by simp)
      | takeDone =>
        simp only [Loop.step] at hstep
        split at hstep
        · simp only [Option.some.injEq] at hstep
          subst hstep
          simpa using h1
        · exact absurd hstep (by simp)

/-- Once `StartPermsSyncing` has returned, whatever happens next leaves the
list of `schedule` invocations as it is. -/
theorem exec_after_return {σ : Type} (sc : Scans σ) (syncer : PermsSyncer σ) :
    ∀ (tr : List Action) (l l' : Loop σ), l.returned = true →
      Loop.exec sc syncer l tr = some l' →
      l'.rounds = l.rounds ∧ l'.returned = true ∧ tr.count .takeTick = 0 := by
  intro tr
  induction tr with
  | nil =>
    intro l l' hr h
    simp only [Loop.exec, Option.some.injEq] at h
    subst h
    simp [hr]
  | cons a tr ih =>
    intro l l' hr h
    rw [Loop.exec] at h
    cases hstep : l.step sc syncer a with
    | none => rw [hstep] at h; exact absurd h (by simp)
    | some l1 =>
      rw [hstep] at h
      have h1 : Loop.exec sc syncer l1 tr = some l' := h
      cases a with
      | tickFires => simp [Loop.step, hr] at hstep
      | cancel =>
        simp only [Loop.step, Option.some.injEq] at hstep
        subst hstep
        simpa using ih { l with done := true } l' hr h1
      | takeTick => simp [Loop.step, hr] at hstep
      | takeDone => simp [Loop.step, hr] at hstep

/-- C7, as the claim states it, fails: a tick that waits in the channel when
the context is cancelled can still be taken by the `select`, so this run
invokes `schedule` after the cancel event; before the last action the
context is cancelled and no round has run, after it one round has run. -/
theorem schedule_invoked_after_cancel :
    (Loop.exec (sourceScans Nat) acceptingSyncer (Loop.start 0) [.tickFires, .cancel]).map
        (fun l => (l.done, l.returned, l.rounds.length)) = some (true, false, 0) ∧
    (Loop.exec (sourceScans Nat) acceptingSyncer (Loop.start 0)
        [.tickFires, .cancel, .takeTick]).map
        (fun l => (l.done, l.returned, l.rounds.length)) = some (true, false, 1) := by
  decide

/-- A cancelled context stays cancelled. -/
theorem exec_done {σ : Type} (sc : Scans σ) (syncer : PermsSyncer σ) :
    ∀ (tr : List Action) (l l' : Loop σ), l.done = true →
      Loop.exec sc syncer l tr = some l' → l'.done = true := by
  intro tr
  induction tr with
  | nil =>
    intro l l' hd h
    simp only [Loop.exec, Option.some.injEq] at h
    subst h
    exact hd
  | cons a tr ih =>
    intro l l' hd h
    rw [Loop.exec] at h
    cases hstep : l.step sc syncer a with
    | none => rw [hstep] at h; exact absurd h (by simp)
    | some l1 =>
      rw [hstep] at h
      have h1 : Loop.exec sc syncer l1 tr = some l' := h
      have hd1 : l1.done = true := by
        cases a with
        | tickFires =>
          simp only [Loop.step] at hstep
          split at hstep
          · exact absurd hstep (by simp)
          · simp only [Option.some.injEq] at hstep
            subst hstep
            exact hd
        | cancel =>
          simp only [Loop.step, Option.some.injEq] at hstep
          subst hstep
          rfl
        | takeTick =>
          simp only [Loop.step] at hstep
          split at hstep
          · simp only [Option.some.injEq] at hstep
            subst hstep
            exact hd
          · exact absurd hstep (by simp)
        | takeDone =>
          simp only [Loop.step] at hstep
          split at hstep
          · simp only [Option.some.injEq] at hstep
            subst hstep
            exact hd
          · exact absurd hstep (by simp)
      exact ih l1 l' hd1 h1

/-- The loop returns only by taking `ctx.Done()`, which needs a cancelled
context. -/
theorem exec_returned {σ : Type} (sc : Scans σ) (syncer : PermsSyncer σ) :
    ∀ (tr : List Action) (l l' : Loop σ), l.returned = false →
      Loop.exec sc syncer l tr = some l' → l'.returned = true →
      l'.done = true ∧ Action.takeDone ∈ tr := by
  intro tr
  induction tr with
  | nil =>
    intro l l' hr h hr'
    simp only [Loop.exec, Option.some.injEq] at h
    subst h
    rw [hr] at hr'
    exact absurd hr' (by simp)
  | cons a tr ih =>
    intro l l' hr h hr'
    rw [Loop.exec] at h
    cases hstep : l.step sc syncer a with
    | none => rw [hstep] at h; exact absurd h (by simp)
    | some l1 =>
      rw [hstep] at h
      have h1 : Loop.exec sc syncer l1 tr = some l' := h
      cases a with
      | tickFires =>
        simp only [Loop.step] at hstep
        split at hstep
        · exact absurd hstep (by simp)
        · simp only [Option.some.injEq] at hstep
          subst hstep
          obtain ⟨h2, h3⟩ := ih { l with tick := true } l' hr h1 hr'
          exact ⟨h2, List.mem_cons_of_mem _ h3⟩
      | cancel =>
        simp only [Loop.step, Option.some.injEq] at hstep
        subst hstep
        obtain ⟨h2, h3⟩ := ih { l with done := true } l' hr h1 hr'
        exact ⟨h2, List.mem_cons_of_mem _ h3⟩
      | takeTick =>
        simp only [Loop.step] at hstep
        split at hstep
        · simp only [Option.some.injEq] at hstep
          subst hstep
          obtain ⟨h2, h3⟩ := ih
            { l with world := (schedule sc syncer l.world).world, tick := false,
                     rounds := l.rounds ++ [schedule sc syncer l.world] } l' hr h1 hr'
          exact ⟨h2, List.mem_cons_of_mem _ h3⟩
        · exact absurd hstep (by simp)
      | takeDone =>
        simp only [Loop.step] at hstep
        split at hstep
        · rename_i hg
          simp only [Option.some.injEq] at hstep
          subst hstep
          exact ⟨exec_done sc syncer tr { l with returned := true } l' hg.2 h1,
            List.mem_cons_self _ _⟩
        · exact absurd hstep (by simp)

/-- C7, amended: every tick the `select` takes invokes `schedule` exactly
once, and a run invokes it for nothing else; whatever `schedule` returns, an
error included, the loop has not returned and the next tick invokes
`schedule` again from its first step; cancellation stops the loop: once the
context is cancelled it stays cancelled, the `select` can take `ctx.Done()`
for as long as the loop has not returned, and when it does the loop returns
and `schedule` is never invoked again; the loop returns in no other way. -/
theorem perms_syncing_loop {σ : Type} (sc : Scans σ) (syncer : PermsSyncer σ) :
    (∀ l : Loop σ, l.returned = false → l.tick = true →
      l.step sc syncer .takeTick =
        some { l with world := (schedule sc syncer l.world).world, tick := false,
                      rounds := l.rounds ++ [schedule sc syncer l.world] }) ∧
    (∀ (tr : List Action) (l l' : Loop σ), Loop.exec sc syncer l tr = some l' →
      l'.rounds.length = l.rounds.length + tr.count .takeTick) ∧
    (∀ l l1 : Loop σ, l.step sc syncer .takeTick = some l1 →
      l1.returned = false ∧
        Loop.exec sc syncer l1 [.tickFires, .takeTick] =
          some { l1 with world := (schedule sc syncer l1.world).world, tick := false,
                         rounds := l1.rounds ++ [schedule sc syncer l1.world] }) ∧
    (∀ l : Loop σ, l.step sc syncer .cancel = some { l with done := true }) ∧
    (∀ (tr : List Action) (l l' : Loop σ), l.done = true →
      Loop.exec sc syncer l tr = some l' → l'.done = true) ∧
    (∀ l : Loop σ, l.returned = false → l.done = true →
      l.step sc syncer .takeDone = some { l with returned := true }) ∧
    (∀ l : Loop σ, l.returned = false →
      Loop.exec sc syncer l [.cancel, .takeDone] =
        some { l with done := true, returned := true }) ∧
    (∀ (l l1 l' : Loop σ) (tr : List Action), l.step sc syncer .takeDone = some l1 →
      Loop.exec sc syncer l1 tr = some l' →
      l.done = true ∧ l1.returned = true ∧ l'.returned = true ∧ l'.rounds = l.rounds ∧
        tr.count .takeTick = 0) ∧
    (∀ (tr : List Action) (l l' : Loop σ), l.returned = false →
      Loop.exec sc syncer l tr = some l' → l'.returned = true →
      l'.done = true ∧ Action.takeDone ∈ tr) := by
  refine ⟨?_, exec_rounds_length sc syncer, ?_, fun _ => rfl, exec_done sc syncer, ?_, ?_, ?_,
    exec_returned sc syncer⟩
  · intro l hr ht
    simp [Loop.step, hr, ht]
  · intro l l1 h
    simp only [Loop.step] at h
    split at h
    · rename_i hg
      simp only [Option.some.injEq] at h
      subst h
      simp [Loop.exec, Loop.step, hg.1]
    · exact absurd h (by simp)
  · intro l hr hd
    simp [Loop.step, hr, hd]
  · intro l hr
    simp [Loop.exec, Loop.step, hr]
  · intro l l1 l' tr h hexec
    simp only [Loop.step] at h
    split at h
    · rename_i hg
      simp only [Option.some.injEq] at h
      subst h
      have := exec_after_return sc syncer tr { l with returned := true } l' rfl hexec
      exact ⟨hg.2, rfl, this.2.1, this.1, this.2.2⟩
    · exact absurd h (by simp)

/-- C7, amended, on runs from the start of the loop with a syncer that
rejects, so that every round fails: a tick is taken and the failed round
recorded; two ticks taken are two rounds; after a failed round the next tick
is taken all the same; cancelling and then taking `ctx.Done()` returns, from
the start and after two failed rounds alike, and what follows runs no
round. -/
theorem perms_syncing_loop_witness :
    (Loop.step (sourceScans Nat) rejectingSyncer ⟨0, true, false, false, []⟩ .takeTick =
        some ⟨0, false, false, false, [schedule (sourceScans Nat) rejectingSyncer 0]⟩) ∧
    (Loop.exec (sourceScans Nat) rejectingSyncer (Loop.start 0)
          [.tickFires, .takeTick, .tickFires, .takeTick] =
        some ⟨0, false, false, false, [schedule (sourceScans Nat) rejectingSyncer 0,
          schedule (sourceScans Nat) rejectingSyncer 0]⟩ ∧
      (schedule (sourceScans Nat) rejectingSyncer 0).err =
        some (.wrap (.new "syncer is shutting down")
          "schedule requests for users with no permissions") ∧
      (⟨0, false, false, false, [schedule (sourceScans Nat) rejectingSyncer 0,
          schedule (sourceScans Nat) rejectingSyncer 0]⟩ : Loop Nat).rounds.length =
        (Loop.start 0 : Loop Nat).rounds.length +
          [Action.tickFires, .takeTick, .tickFires, .takeTick].count .takeTick) ∧
    (Loop.exec (sourceScans Nat) rejectingSyncer (Loop.start 0) [.tickFires, .takeTick] =
        some ⟨0, false, false, false, [schedule (sourceScans Nat) rejectingSyncer 0]⟩ ∧
      (⟨0, false, false, false, [schedule (sourceScans Nat) rejectingSyncer 0]⟩ :
          Loop Nat).returned = false ∧
      Loop.exec (sourceScans Nat) rejectingSyncer
          ⟨0, false, false, false, [schedule (sourceScans Nat) rejectingSyncer 0]⟩
          [.tickFires, .takeTick] =
        some ⟨0, false, false, false, [schedule (sourceScans Nat) rejectingSyncer 0,
          schedule (sourceScans Nat) rejectingSyncer 0]⟩) ∧
    (Loop.step (sourceScans Nat) rejectingSyncer (Loop.start 0) .cancel =
        some ⟨0, false, true, false, []⟩) ∧
    (Loop.exec (sourceScans Nat) rejectingSyncer ⟨0, true, true, false, []⟩
          [.takeTick, .tickFires] =
        some ⟨0, true, true, false, [schedule (sourceScans Nat) rejectingSyncer 0]⟩ ∧
      (⟨0, true, true, false, [schedule (sourceScans Nat) rejectingSyncer 0]⟩ :
          Loop Nat).done = true) ∧
    (Loop.step (sourceScans Nat) rejectingSyncer ⟨0, true, true, false, []⟩ .takeDone =
        some ⟨0, true, true, true, []⟩) ∧
    (Loop.exec (sourceScans Nat) rejectingSyncer (Loop.start 0) [.cancel, .takeDone] =
        some ⟨0, false, true, true, []⟩) ∧
    (Loop.step (sourceScans Nat) rejectingSyncer ⟨0, true, true, false, []⟩ .takeDone =
        some ⟨0, true, true, true, []⟩ ∧
      Loop.exec (sourceScans Nat) rejectingSyncer ⟨0, true, true, true, []⟩ [.cancel] =
        some ⟨0, true, true, true, []⟩ ∧
      Loop.exec (sourceScans Nat) rejectingSyncer ⟨0, true, true, true, []⟩ [.takeTick] = none ∧
      (⟨0, true, true, false, []⟩ : Loop Nat).done = true ∧
      (⟨0, true, true, true, []⟩ : Loop Nat).returned = true ∧
      (⟨0, true, true, true, []⟩ : Loop Nat).returned = true ∧
      (⟨0, true, true, true, []⟩ : Loop Nat).rounds =
        (⟨0, true, true, false, []⟩ : Loop Nat).rounds ∧
      [Action.cancel].count .takeTick = 0) ∧
    (Loop.exec (sourceScans Nat) rejectingSyncer (Loop.start 0)
          [.tickFires, .takeTick, .cancel, .takeDone] =
        some ⟨0, false, true, true, [schedule (sourceScans Nat) rejectingSyncer 0]⟩ ∧
      (⟨0, false, true, true, [schedule (sourceScans Nat) rejectingSyncer 0]⟩ :
          Loop Nat).done = true ∧
      Action.takeDone ∈ [Action.tickFires, .takeTick, .cancel, .takeDone]) :=
  ⟨(perms_syncing_loop (sourceScans Nat) rejectingSyncer).1 ⟨0, true, false, false, []⟩ rfl rfl,
    ⟨rfl, rfl, (perms_syncing_loop (sourceScans Nat) rejectingSyncer).2.1
      [.tickFires, .takeTick, .tickFires, .takeTick] (Loop.start 0)
      ⟨0, false, false, false, [schedule (sourceScans Nat) rejectingSyncer 0,
        schedule (sourceScans Nat) rejectingSyncer 0]⟩ rfl⟩,
    ⟨rfl, (perms_syncing_loop (sourceScans Nat) rejectingSyncer).2.2.1
      ⟨0, true, false, false, []⟩
      ⟨0, false, false, false, [schedule (sourceScans Nat) rejectingSyncer 0]⟩ rfl⟩,
    (perms_syncing_loop (sourceScans Nat) rejectingSyncer).2.2.2.1 (Loop.start 0),
    ⟨rfl, (perms_syncing_loop (sourceScans Nat) rejectingSyncer).2.2.2.2.1
      [.takeTick, .tickFires] ⟨0, true, true, false, []⟩
      ⟨0, true, true, false, [schedule (sourceScans Nat) rejectingSyncer 0]⟩ rfl rfl⟩,
    (perms_syncing_loop (sourceScans Nat) rejectingSyncer).2.2.2.2.2.1
      ⟨0, true, true, false, []⟩ rfl rfl,
    (perms_syncing_loop (sourceScans Nat) rejectingSyncer).2.2.2.2.2.2.1 (Loop.start 0) rfl,
    ⟨rfl, rfl, rfl, (perms_syncing_loop (sourceScans Nat) rejectingSyncer).2.2.2.2.2.2.2.1
      ⟨0, true, true, false, []⟩ ⟨0, true, true, true, []⟩ ⟨0, true, true, true, []⟩
      [.cancel] rfl rfl⟩,
    ⟨rfl, (perms_syncing_loop (sourceScans Nat) rejectingSyncer).2.2.2.2.2.2.2.2
      [.tickFires, .takeTick, .cancel, .takeDone] (Loop.start 0)
      ⟨0, false, true, true, [schedule (sourceScans Nat) rejectingSyncer 0]⟩ rfl rfl rfl⟩⟩

/-- Low is the least priority. -/
theorem Priority.low_max (p : Priority) : Priority.PriorityLow.max p = p := by
  cases p <;> rfl

/-- The maximum after one more priority. -/
theorem maxPriority_append (ps : List Priority) (p : Priority) :
    maxPriority (ps ++ [p]) = (maxPriority ps).max p := by
  simp [maxPriority, List.foldl_append]

/-- Enqueuing a subject leaves the pending requests of the others alone. -/
theorem pendingFor_enqueue_ne (subject other : Subject) (p : Priority) (now : Nat)
    (h : subject ≠ other) (q : List SyncRequest) :
    pendingFor other (enqueue subject p now q) = pendingFor other q := by
  induction q with
  | nil => simp [enqueue, pendingFor, h]
  | cons r q ih =>
    simp only [enqueue]
    split
    · rename_i hr
      have hne : r.subject ≠ other := hr ▸ h
      simp [pendingFor, hne]
    · simp only [pendingFor, List.filter_cons] at ih ⊢
      split <;> simp [ih]

/-- Enqueuing a subject raises its first pending request, or adds one if it
has none. -/
theorem pendingFor_enqueue_self (subject : Subject) (p : Priority) (now : Nat)
    (q : List SyncRequest) :
    pendingFor subject (enqueue subject p now q) =
      match pendingFor subject q with
      | [] => [p]
      | old :: rest => old.max p :: rest := by
  induction q with
  | nil => simp [enqueue, pendingFor]
  | cons r q ih =>
    simp only [enqueue]
    split
    · rename_i hr
      simp [pendingFor, hr]
    · rename_i hr
      have e1 : pendingFor subject (r :: enqueue subject p now q) =
          pendingFor subject (enqueue subject p now q) := by simp [pendingFor, hr]
      have e2 : pendingFor subject (r :: q) = pendingFor subject q := by simp [pendingFor, hr]
      rw [e1, e2, ih]

/-- One enqueue keeps the queue tracking the history. -/
theorem Tracks.enqueue {q : List SyncRequest} {hist hist' : Subject → List Priority}
    (h : Tracks q hist) (subject : Subject) (p : Priority) (now : Nat)
    (hh : ∀ x, hist' x = if subject = x then hist x ++ [p] else hist x) :
    Tracks (Authz.enqueue subject p now q) hist' := by
  intro x
  by_cases hx : subject = x
  · subst hx
    rw [pendingFor_enqueue_self, h subject, hh subject]
    by_cases he : hist subject = []
    · simp [he, maxPriority, Priority.low_max]
    · simp [he, maxPriority_append]
  · rw [pendingFor_enqueue_ne subject x p now hx, h x, hh x]
    simp [hx]

/-- One call keeps the queue tracking the history. -/
theorem Tracks.subjects (p : Priority) (now : Nat) :
    ∀ (subs : List Subject) (q : List SyncRequest) (hist hist' : Subject → List Priority),
      Tracks q hist →
      (∀ x, hist' x = hist x ++ (subs.filter (· = x)).map fun _ => p) →
      Tracks (subs.foldl (fun q subject => Authz.enqueue subject p now q) q) hist' := by
  intro subs
  induction subs with
  | nil =>
    intro q hist hist' h hh x
    simpa [hh x] using h x
  | cons s subs ih =>
    intro q hist hist' h hh
    simp only [List.foldl_cons]
    refine ih (Authz.enqueue s p now q) (fun x => if s = x then hist x ++ [p] else hist x) hist'
      (h.enqueue s p now (fun _ => rfl)) ?_
    intro x
    rw [hh x]
    by_cases hx : s = x
    · simp [hx]
    · simp [hx]

/-- A sequence of calls keeps the queue tracking the history. -/
theorem Tracks.calls :
    ∀ (cs : List Call) (q : List SyncRequest) (now : Nat) (hist : Subject → List Priority),
      Tracks q hist →
      Tracks (pendingAfter q now cs) (fun x => hist x ++ enqueuedWith x cs) := by
  intro cs
  induction cs with
  | nil =>
    intro q now hist h x
    simpa [pendingAfter, enqueuedWith] using h x
  | cons c cs ih =>
    intro q now hist h
    have h1 : Tracks (applyCall q now c)
        (fun x => hist x ++ (c.subjects.filter (· = x)).map fun _ => c.priority) :=
      Tracks.subjects c.priority now c.subjects q hist _ h (fun _ => rfl)
    have h2 := ih (applyCall q now c) (now + 1) _ h1
    intro x
    have h3 := h2 x
    simp only [pendingAfter]
    rw [h3]
    simp [enqueuedWith, List.append_assoc]

/-- C9: in the queue as the spec describes it, after any sequence of
`ScheduleUsers` / `ScheduleRepos` calls with nothing dispatched, a subject has
at most one pending request; it has none if it was never enqueued and
otherwise exactly one, whose priority is the maximum of the priorities it was
enqueued with; the same subject at Low then High, or at High then Low, is
left with exactly one pending request at High. -/
theorem queue_one_pending_at_max (cs : List Call) (now : Nat) (subject : Subject) :
    ((pendingAfter [] now cs).filter (·.subject = subject)).length ≤ 1 ∧
    pendingFor subject (pendingAfter [] now cs) =
      (if enqueuedWith subject cs = [] then []
        else [maxPriority (enqueuedWith subject cs)]) ∧
    (∀ id : Int,
      pendingFor (.User id) (pendingAfter [] now
          [.ScheduleUsers .PriorityLow [id], .ScheduleUsers .PriorityHigh [id]]) =
        [.PriorityHigh] ∧
      pendingFor (.User id) (pendingAfter [] now
          [.ScheduleUsers .PriorityHigh [id], .ScheduleUsers .PriorityLow [id]]) =
        [.PriorityHigh] ∧
      pendingFor (.Repo id) (pendingAfter [] now
          [.ScheduleRepos .PriorityLow [id], .ScheduleRepos .PriorityHigh [id]]) =
        [.PriorityHigh] ∧
      pendingFor (.Repo id) (pendingAfter [] now
          [.ScheduleRepos .PriorityHigh [id], .ScheduleRepos .PriorityLow [id]]) =
        [.PriorityHigh]) := by
  have h0 : Tracks [] (fun _ => []) := by
    intro x
    simp [pendingFor]
  have key : ∀ cs' subject', pendingFor subject' (pendingAfter [] now cs') =
      (if enqueuedWith subject' cs' = [] then []
        else [maxPriority (enqueuedWith subject' cs')]) := by
    intro cs' subject'
    have h := Tracks.calls cs' [] now (fun _ => []) h0 subject'
    simpa using h
  refine ⟨?_, key cs subject, ?_⟩
  · have h := congrArg List.length (key cs subject)
    simp only [pendingFor, List.length_map] at h
    rw [h]
    split <;> simp
  · intro id
    refine ⟨?_, ?_, ?_, ?_⟩ <;> rw [key] <;>
      simp [enqueuedWith, Call.subjects, Call.priority, maxPriority, Priority.max]

end Authz

namespace Debugproxies

open Go

/-- A host with a colon in it is not the empty string. -/
theorem host_ne_empty (a b : String) : a ++ ":" ++ b ≠ "" := by
  intro h
  have h1 := congrArg String.length h
  simp only [String.length_append] at h1
  have h2 : ":".length = 1 := by decide
  have h3 : "".length = 0 := by decide
  omega

/-- `addrToHost` gives the host of `endpointOf`, and the empty string where
there is none. -/
theorem addrToHost_eq (svcName : String) (port : Int) (addr : EndpointAddress) :
    (endpointOf svcName port addr = none ∧ addrToHost addr port = "") ∨
      (endpointOf svcName port addr = some ⟨svcName, addrToHost addr port⟩ ∧
        addrToHost addr port ≠ "") := by
  unfold endpointOf addrToHost
  cases addr.Ip with
  | some ip => exact Or.inr ⟨rfl, host_ne_empty _ _⟩
  | none =>
    cases addr.Hostname with
    | none => exact Or.inl ⟨rfl, rfl⟩
    | some hostname =>
      by_cases hh : hostname = ""
      · simp [hh]
      · simp [hh, host_ne_empty]

/-- The loop over addresses appends the endpoints of the addresses in
order. -/
theorem scanAddresses_eq (svcName : String) (port : Int) :
    ∀ (addrs : List EndpointAddress) (acc : List Endpoint),
      scanAddresses svcName port addrs acc = acc ++ addrs.filterMap (endpointOf svcName port) := by
  intro addrs
  induction addrs with
  | nil => intro acc; simp [scanAddresses]
  | cons addr addrs ih =>
    intro acc
    simp only [scanAddresses]
    rcases addrToHost_eq svcName port addr with ⟨h1, h2⟩ | ⟨h1, h2⟩
    · simp [h2, ih, List.filterMap_cons, h1]
    · simp [h2, ih, List.filterMap_cons, h1]

/-- The loop over subsets appends the endpoints subset by subset. -/
theorem scanSubsets_eq (svcName : String) (port : Int) :
    ∀ (subsets : List EndpointSubset) (acc : List Endpoint),
      scanSubsets svcName port subsets acc =
        acc ++ subsets.flatMap fun subset =>
          subset.Addresses.filterMap (endpointOf svcName port) := by
  intro subsets
  induction subsets with
  | nil => intro acc; simp [scanSubsets]
  | cons subset subsets ih =>
    intro acc
    simp [scanSubsets, ih, scanAddresses_eq, List.append_assoc]

/-- One turn of the loop over services, for a service with a name: a service
that is not scraped is skipped, a scraped one has its endpoints fetched and
appended, and a failed fetch ends the scan. -/
theorem scanServices_cons (client : K8sClient) (svc : Service) (svcs : List Service)
    (acc : List Endpoint) (md : ObjectMeta) (name : String) (hm : svc.Metadata = some md)
    (hn : md.Name = some name) :
    scanServices client (svc :: svcs) acc =
      match scraped svc with
      | none => scanServices client svcs acc
      | some np =>
        match client.Get np.1 with
        | .error _ => .getFailed
        | .ok endpoints =>
          scanServices client svcs (scanSubsets np.1 np.2 endpoints.Subsets acc) := by
  simp only [scanServices, scraped, hm, hn]
  by_cases h1 : name = "pgsql"
  · simp [h1]
  · by_cases h2 : md.Annotations "sourcegraph.prometheus/scrape" = "true"
    · by_cases h3 : md.Annotations "prometheus.io/port" = ""
      · simp [h1, h2, h3]
      · cases h4 : Atoi (md.Annotations "prometheus.io/port") with
        | none => simp [h1, h2, h3]
        | some port => simp [h1, h2, h3]
    · simp [h1, h2]

/-- The expected endpoints of a list of services, service by service. -/
theorem expectedEndpoints_cons (client : K8sClient) (svc : Service) (svcs : List Service) :
    expectedEndpoints client (svc :: svcs) =
      (match scraped svc with
        | none => []
        | some np =>
          match client.Get np.1 with
          | .error _ => []
          | .ok endpoints =>
            endpoints.Subsets.flatMap fun subset =>
              subset.Addresses.filterMap (endpointOf np.1 np.2)) ++
        expectedEndpoints client svcs := by
  unfold expectedEndpoints
  cases h : scraped svc with
  | none => simp [List.filterMap_cons, h]
  | some np => simp [List.filterMap_cons, h]

/-- If the loop over services reaches the consumer, every service had a name,
every fetch succeeded, and the consumer gets the expected endpoints. -/
theorem scanServices_consumed (client : K8sClient) :
    ∀ (svcs : List Service) (acc res : List Endpoint),
      scanServices client svcs acc = .consumed res →
      res = acc ++ expectedEndpoints client svcs ∧
        (∀ svc, svc ∈ svcs → ∃ md name, svc.Metadata = some md ∧ md.Name = some name) ∧
        (∀ np, np ∈ svcs.filterMap scraped → ∃ endpoints, client.Get np.1 = .ok endpoints) := by
  intro svcs
  induction svcs with
  | nil =>
    intro acc res h
    simp only [scanServices, Scan.consumed.injEq] at h
    subst h
    simp [expectedEndpoints]
  | cons svc svcs ih =>
    intro acc res h
    cases hm : svc.Metadata with
    | none => simp [scanServices, hm] at h
    | some md =>
      cases hn : md.Name with
      | none => simp [scanServices, hm, hn] at h
      | some name =>
        rw [scanServices_cons client svc svcs acc md name hm hn] at h
        rw [expectedEndpoints_cons]
        cases hs : scraped svc with
        | none =>
          rw [hs] at h
          obtain ⟨h1, h2, h3⟩ := ih acc res h
          refine ⟨by simpa using h1, ?_, ?_⟩
          · intro svc' hmem
            rcases List.mem_cons.mp hmem with rfl | hmem
            · exact ⟨md, name, hm, hn⟩
            · exact h2 svc' hmem
          · intro np hnp
            rw [List.filterMap_cons, hs] at hnp
            exact h3 np hnp
        | some np =>
          rw [hs] at h
          cases hg : client.Get np.1 with
          | error e => simp [hg] at h
          | ok endpoints =>
            simp only [hg] at h
            obtain ⟨h1, h2, h3⟩ := ih _ res h
            refine ⟨?_, ?_, ?_⟩
            · rw [h1, scanSubsets_eq]
              simp [List.append_assoc, hg]
            · intro svc' hmem
              rcases List.mem_cons.mp hmem with rfl | hmem
              · exact ⟨md, name, hm, hn⟩
              · exact h2 svc' hmem
            · intro np' hnp
              rw [List.filterMap_cons, hs] at hnp
              rcases List.mem_cons.mp hnp with rfl | hnp
              · exact ⟨endpoints, hg⟩
              · exact h3 np' hnp

/-- If every service has a name and every fetch for a scraped service
succeeds, the loop over services reaches the consumer with the expected
endpoints. -/
theorem scanServices_total (client : K8sClient) :
    ∀ (svcs : List Service) (acc : List Endpoint),
      (∀ svc, svc ∈ svcs → ∃ md name, svc.Metadata = some md ∧ md.Name = some name) →
      (∀ np, np ∈ svcs.filterMap scraped → ∃ endpoints, client.Get np.1 = .ok endpoints) →
      scanServices client svcs acc = .consumed (acc ++ expectedEndpoints client svcs) := by
  intro svcs
  induction svcs with
  | nil => intro acc _ _; simp [scanServices, expectedEndpoints]
  | cons svc svcs ih =>
    intro acc hnamed hget
    obtain ⟨md, name, hm, hn⟩ := hnamed svc (List.mem_cons_self _ _)
    have hnamed' : ∀ svc', svc' ∈ svcs → ∃ md name, svc'.Metadata = some md ∧ md.Name = some name :=
      fun svc' h => hnamed svc' (List.mem_cons_of_mem _ h)
    rw [scanServices_cons client svc svcs acc md name hm hn, expectedEndpoints_cons]
    cases hs : scraped svc with
    | none =>
      have hget' : ∀ np, np ∈ svcs.filterMap scraped → ∃ endpoints, client.Get np.1 = .ok endpoints := by
        intro np hnp
        exact hget np (by rw [List.filterMap_cons, hs]; exact hnp)
      simpa using ih acc hnamed' hget'
    | some np =>
      have hget' : ∀ np, np ∈ svcs.filterMap scraped → ∃ endpoints, client.Get np.1 = .ok endpoints := by
        intro np' hnp
        exact hget np' (by rw [List.filterMap_cons, hs]; exact List.mem_cons_of_mem _ hnp)
      obtain ⟨endpoints, hg⟩ := hget np (by rw [List.filterMap_cons, hs]; exact List.mem_cons_self _ _)
      simp only [hg]
      rw [ih _ hnamed' hget', scanSubsets_eq]
      simp [List.append_assoc, hg]

/-- What `scraped` says of a service. -/
theorem scraped_some (svc : Service) (np : String × Int) (h : scraped svc = some np) :
    ∃ md, svc.Metadata = some md ∧ md.Name = some np.1 ∧ np.1 ≠ "pgsql" ∧
      md.Annotations "sourcegraph.prometheus/scrape" = "true" ∧
      md.Annotations "prometheus.io/port" ≠ "" ∧
      Atoi (md.Annotations "prometheus.io/port") = some np.2 := by
  unfold scraped at h
  cases hm : svc.Metadata with
  | none => simp [hm] at h
  | some md =>
    cases hn : md.Name with
    | none => simp [hm, hn] at h
    | some name =>
      simp only [hm, hn] at h
      split at h
      · rename_i hc
        obtain ⟨port, hp, hnp⟩ := Option.map_eq_some'.mp h
        subst hnp
        exact ⟨md, rfl, hn, hc.1, hc.2.1, hc.2.2, hp⟩
      · exact absurd h (by simp)

/-- What `endpointOf` says of an address. -/
theorem endpointOf_some (svcName : String) (port : Int) (addr : EndpointAddress) (e : Endpoint)
    (h : endpointOf svcName port addr = some e) :
    e.Service = svcName ∧
      ((∃ ip, addr.Ip = some ip ∧ e.Host = ip ++ ":" ++ Itoa port) ∨
        (addr.Ip = none ∧ ∃ hostname, addr.Hostname = some hostname ∧ hostname ≠ "" ∧
          e.Host = hostname ++ ":" ++ Itoa port)) := by
  unfold endpointOf at h
  cases hi : addr.Ip with
  | some ip =>
    simp only [hi, Option.some.injEq] at h
    subst h
    exact ⟨rfl, Or.inl ⟨ip, rfl, rfl⟩⟩
  | none =>
    cases hh : addr.Hostname with
    | none => simp [hi, hh] at h
    | some hostname =>
      simp only [hi, hh] at h
      split at h
      · rename_i hne
        simp only [Option.some.injEq] at h
        subst h
        exact ⟨rfl, Or.inr ⟨rfl, hostname, rfl, hne, rfl⟩⟩
      · exact absurd h (by simp)

/-- C10: when the services are listed, each has a name and the endpoints of
each scraped service are fetched, `scanCluster` passes to the consumer the
expected endpoints, in service order, then subset order, then address order;
and every endpoint it ever passes to the consumer belongs to a listed service
that is not `pgsql`, is annotated `sourcegraph.prometheus/scrape` = `true`
and whose annotation `prometheus.io/port` is a non-empty string that parses
as the integer `port`, and comes from an address of its endpoints with Host
`ip:port` if the address has an IP and otherwise `hostname:port` for its
non-empty hostname; for an address with neither `addrToHost` returns the
empty string. -/
theorem scanCluster_endpoints (client : K8sClient) :
    (∀ services : List Service, client.List = .ok services →
      (∀ svc, svc ∈ services → ∃ md name, svc.Metadata = some md ∧ md.Name = some name) →
      (∀ np, np ∈ services.filterMap scraped → ∃ endpoints, client.Get np.1 = .ok endpoints) →
      scanCluster client = .consumed (expectedEndpoints client services)) ∧
    (∀ results : List Endpoint, scanCluster client = .consumed results →
      ∃ services, client.List = .ok services ∧
        results = expectedEndpoints client services ∧
        ∀ e, e ∈ results →
          ∃ svc md port endpoints subset addr,
            svc ∈ services ∧ svc.Metadata = some md ∧ md.Name = some e.Service ∧
            e.Service ≠ "pgsql" ∧
            md.Annotations "sourcegraph.prometheus/scrape" = "true" ∧
            md.Annotations "prometheus.io/port" ≠ "" ∧
            Atoi (md.Annotations "prometheus.io/port") = some port ∧
            client.Get e.Service = .ok endpoints ∧
            subset ∈ endpoints.Subsets ∧ addr ∈ subset.Addresses ∧
            ((∃ ip, addr.Ip = some ip ∧ e.Host = ip ++ ":" ++ Itoa port) ∨
              (addr.Ip = none ∧ ∃ hostname, addr.Hostname = some hostname ∧ hostname ≠ "" ∧
                e.Host = hostname ++ ":" ++ Itoa port))) ∧
    (∀ (addr : EndpointAddress) (port : Int), addr.Ip = none →
      (addr.Hostname = none ∨ addr.Hostname = some "") → addrToHost addr port = "") := by
  refine ⟨?_, ?_, ?_⟩
  · intro services hl hnamed hget
    unfold scanCluster
    rw [hl]
    simpa using scanServices_total client services [] hnamed hget
  · intro results h
    unfold scanCluster at h
    cases hl : client.List with
    | error e => simp [hl] at h
    | ok services =>
      simp only [hl] at h
      obtain ⟨h1, _, h3⟩ := scanServices_consumed client services [] results h
      rw [List.nil_append] at h1
      refine ⟨services, rfl, h1, ?_⟩
      intro e he
      rw [h1] at he
      unfold expectedEndpoints at he
      obtain ⟨np, hnp, he⟩ := List.mem_flatMap.mp he
      obtain ⟨svc, hsvc, hscr⟩ := List.mem_filterMap.mp hnp
      obtain ⟨md, hm, hn, hpg, hsc, hpe, hpa⟩ := scraped_some svc np hscr
      obtain ⟨endpoints, hg⟩ := h3 np hnp
      simp only [hg] at he
      obtain ⟨subset, hsub, he⟩ := List.mem_flatMap.mp he
      obtain ⟨addr, haddr, he⟩ := List.mem_filterMap.mp he
      obtain ⟨hserv, hhost⟩ := endpointOf_some np.1 np.2 addr e he
      refine ⟨svc, md, np.2, endpoints, subset, addr, hsvc, hm, ?_, ?_, hsc, hpe, hpa, ?_, hsub,
        haddr, hhost⟩
      · rw [hserv]; exact hn
      · rw [hserv]; exact hpg
      · rw [hserv]; exact hg
  · intro addr port hi hh
    unfold addrToHost
    rcases hh with hh | hh <;> simp [hi, hh]

/-- C10 on a cluster with `pgsql`, `gitserver` on port 6060 with an IP
address, an address with neither IP nor hostname and a hostname address, and
`searcher` whose port is not an integer: the consumer gets the two endpoints
of `gitserver`, in order. -/
theorem scanCluster_endpoints_witness :
    scanCluster smallCluster =
        .consumed [⟨"gitserver", "10.0.0.1:6060"⟩, ⟨"gitserver", "gitserver-1:6060"⟩] ∧
      (∃ services, smallCluster.List = .ok services ∧
        [(⟨"gitserver", "10.0.0.1:6060"⟩ : Endpoint), ⟨"gitserver", "gitserver-1:6060"⟩] =
          expectedEndpoints smallCluster services ∧
        ∀ e, e ∈ [(⟨"gitserver", "10.0.0.1:6060"⟩ : Endpoint),
            ⟨"gitserver", "gitserver-1:6060"⟩] →
          ∃ svc md port endpoints subset addr,
            svc ∈ services ∧ svc.Metadata = some md ∧ md.Name = some e.Service ∧
            e.Service ≠ "pgsql" ∧
            md.Annotations "sourcegraph.prometheus/scrape" = "true" ∧
            md.Annotations "prometheus.io/port" ≠ "" ∧
            Atoi (md.Annotations "prometheus.io/port") = some port ∧
            smallCluster.Get e.Service = .ok endpoints ∧
            subset ∈ endpoints.Subsets ∧ addr ∈ subset.Addresses ∧
            ((∃ ip, addr.Ip = some ip ∧ e.Host = ip ++ ":" ++ Itoa port) ∨
              (addr.Ip = none ∧ ∃ hostname, addr.Hostname = some hostname ∧ hostname ≠ "" ∧
                e.Host = hostname ++ ":" ++ Itoa port))) ∧
      addrToHost ⟨none, some ""⟩ 6060 = "" :=
  ⟨(scanCluster_endpoints smallCluster).1
      [⟨some ⟨some "pgsql", scrapeOn "5432"⟩⟩, ⟨some ⟨some "gitserver", scrapeOn "6060"⟩⟩,
        ⟨some ⟨some "searcher", scrapeOn "http"⟩⟩]
      rfl
      (fun svc h => by
        simp only [List.mem_cons, List.mem_singleton, List.not_mem_nil, or_false] at h
        rcases h with rfl | rfl | rfl <;> exact ⟨_, _, rfl, rfl⟩)
      (fun np _ => by
        unfold smallCluster
        simp only
        split <;> exact ⟨_, rfl⟩),
    (scanCluster_endpoints smallCluster).2.1
      [⟨"gitserver", "10.0.0.1:6060"⟩, ⟨"gitserver", "gitserver-1:6060"⟩] (by decide),
    (scanCluster_endpoints smallCluster).2.2 ⟨none, some ""⟩ 6060 rfl (Or.inr rfl)⟩

end Debugproxies
